import Mathlib

/-!
# Verification of the rofi-menu core against its source

This file shallowly embeds the parts of the `python-rofi-menu` repository that
the specification's claims are about:

* the metadata wire codec (`json.dumps`/`json.loads` over base64 + UTF-8) used
  by `rofi_mode_16.py` and `rofi_mode_174.py`;
* the two `parse_meta` environment decoders and the `parser_1_7_4/decoder.py`
  action mapping;
* `MetaStore`, `Operation`, `Item`, `NestedMenu` and `Menu` from `menu.py`,
  with their selection routing (`propagate_select`, `handle_select`) and
  rendering (`handle_render`);
* an instrumented bound item recording how often `load` runs.

Python dictionaries are modelled as association lists in insertion order
(`dset` is `d[k] = v`, `dupd` is `dict.update`), machine strings as `String`
(lists of unicode scalar values), bytes as `List Nat`, and raising code as
`Option`-valued functions (`none` = an exception propagated to the caller).
-/

/-- A JSON value, the domain of `json.dumps`/`json.loads` as used by the
repository: metadata dictionaries, row ids (arrays of strings), texts and
stored item state.  Numbers are integers: the repository never serialises
floats. -/
inductive Json where
  | jnull : Json
  | jbool : Bool → Json
  | jnum : Int → Json
  | jstr : String → Json
  | jarr : List Json → Json
  | jobj : List (String × Json) → Json
deriving Inhabited

/-- Python `d.get(k)`: the value at the first matching key, if any. -/
def dget (k : String) : List (String × Json) → Option Json
  | [] => none
  | (k1, v) :: t => if k1 = k then some v else dget k t

/-- Python `d[k] = v`: replace in place if the key exists, else append. -/
def dset (k : String) (v : Json) : List (String × Json) → List (String × Json)
  | [] => [(k, v)]
  | (k1, v1) :: t => if k1 = k then (k1, v) :: t else (k1, v1) :: dset k v t

/-- Python `d.update(r)`: fold every pair of `r` into `d` with `dset`. -/
def dupd (d : List (String × Json)) : List (String × Json) → List (String × Json)
  | [] => d
  | (k, v) :: t => dupd (dset k v d) t

/-! ## Decimal digits (the serialisation of `Json.jnum`) -/

/-- The character of a decimal digit `k < 10`. -/
def decDigit (k : Nat) : Char := Char.ofNat (48 + k)

/-- The decimal digit characters of `n`, most significant first; `fl` is
structural fuel, sufficient whenever `n < fl`. -/
def natChars : Nat → Nat → List Char
  | 0, _ => []
  | fl + 1, n =>
      if n < 10 then [decDigit n]
      else natChars fl (n / 10) ++ [decDigit (n % 10)]

/-- The decimal characters of an integer, as Python prints it. -/
def intChars (i : Int) : List Char :=
  if i < 0 then '-' :: natChars (i.natAbs + 1) i.natAbs
  else natChars (i.toNat + 1) i.toNat

/-! ## `json.dumps`

`pyDumps` follows CPython's `json.dumps` with its default separators:
`", "` between array elements and object members and `": "` after a key.
Escaping: `"` and `\` get a backslash, control characters become `\u00xx`;
other characters are emitted literally and the result is UTF-8 encoded
before base64 (the value decoded by `json.loads` is the same one CPython's
default ASCII-escaping would give, which is all the repository observes). -/

/-- Lowercase hexadecimal digit of `k < 16`. -/
def hexCharOf (k : Nat) : Char :=
  if k < 10 then Char.ofNat (48 + k) else Char.ofNat (87 + k)

/-- JSON string escaping of one character. -/
def jsonEsc (c : Char) : List Char :=
  if c = '"' then ['\\', '"']
  else if c = '\\' then ['\\', '\\']
  else if c.toNat < 32 then
    ['\\', 'u', '0', '0', hexCharOf (c.toNat / 16), hexCharOf (c.toNat % 16)]
  else [c]

/-- A serialised JSON string: quote, escaped body, quote. -/
def strChars (s : String) : List Char :=
  '"' :: (s.data.flatMap jsonEsc ++ ['"'])

mutual
  /-- Serialise one value (CPython `json.dumps` with default separators). -/
def pyDumps : Json → List Char
    | .jnull => ['n', 'u', 'l', 'l']
    | .jbool true => ['t', 'r', 'u', 'e']
    | .jbool false => ['f', 'a', 'l', 's', 'e']
    | .jnum i => intChars i
    | .jstr s => strChars s
    | .jarr [] => ['[', ']']
    | .jarr (x :: xs) => '[' :: (pyDumps x ++ dumpTail xs ++ [']'])
    | .jobj [] => ['{', '}']
    | .jobj (m :: ms) => '{' :: (dumpMember m ++ dumpMTail ms ++ ['}'])
  /-- `", elem"` for each further array element. -/
def dumpTail : List Json → List Char
    | [] => []
    | x :: xs => ',' :: ' ' :: (pyDumps x ++ dumpTail xs)
  /-- One `"key": value` object member. -/
def dumpMember : String × Json → List Char
    | (k, v) => strChars k ++ ':' :: ' ' :: pyDumps v
  /-- `", member"` for each further object member. -/
def dumpMTail : List (String × Json) → List Char
    | [] => []
    | m :: ms => ',' :: ' ' :: (dumpMember m ++ dumpMTail ms)
end

/-! ## `json.loads`

A recursive-descent parser over character lists, total by structural `fuel`
recursion; `none` models `json.JSONDecodeError`.  It accepts everything
`pyDumps` emits (proved below) and rejects garbage, which is all the
repository's decode paths rely on. -/

/-- JSON insignificant whitespace. -/
def jWs (c : Char) : Bool := c = ' ' || c = '\n' || c = '\t' || c = '\r'

/-- Drop insignificant whitespace. -/
def dropWs : List Char → List Char
  | c :: r => if jWs c then dropWs r else c :: r
  | [] => []

/-- Decimal digit test. -/
def decDig (c : Char) : Bool := 48 ≤ c.toNat && c.toNat ≤ 57

/-- The value of one hexadecimal digit character. -/
def hexValOf (c : Char) : Option Nat :=
  if 48 ≤ c.toNat && c.toNat ≤ 57 then some (c.toNat - 48)
  else if 97 ≤ c.toNat && c.toNat ≤ 102 then some (c.toNat - 87)
  else if 65 ≤ c.toNat && c.toNat ≤ 70 then some (c.toNat - 55)
  else none

mutual
  /-- Parse a string body after the opening quote, undoing `jsonEsc`. -/
def scanStr : List Char → Option (List Char × List Char)
    | [] => none
    | c :: r =>
      if c = '"' then some ([], r)
      else if c = '\\' then scanEsc r
      else (scanStr r).map (fun p => (c :: p.1, p.2))
  /-- Parse what follows a backslash inside a string body. -/
def scanEsc : List Char → Option (List Char × List Char)
    | [] => none
    | e :: r1 =>
      if e = '"' then (scanStr r1).map (fun p => ('"' :: p.1, p.2))
      else if e = '\\' then (scanStr r1).map (fun p => ('\\' :: p.1, p.2))
      else if e = 'u' then
        match r1 with
        | h1 :: h2 :: h3 :: h4 :: r2 =>
          match hexValOf h1, hexValOf h2, hexValOf h3, hexValOf h4 with
          | some a, some b, some c3, some d =>
              (scanStr r2).map (fun p => (Char.ofNat (((a * 16 + b) * 16 + c3) * 16 + d) :: p.1, p.2))
          | _, _, _, _ => none
        | _ => none
      else none
end

/-- Longest digit run at the head. -/
def scanDigits : List Char → List Char × List Char
  | [] => ([], [])
  | c :: r =>
      if decDig c then
        let p := scanDigits r
        (c :: p.1, p.2)
      else ([], c :: r)

/-- Numeric value of a digit run. -/
def digitsVal (ds : List Char) : Nat :=
  ds.foldl (fun a c => a * 10 + (c.toNat - 48)) 0

/-- Parse an integer literal (optional minus sign, then digits). -/
def scanInt : List Char → Option (Int × List Char)
  | [] => none
  | c :: r =>
    if c = '-' then
      let p := scanDigits r
      if p.1 = [] then none else some (-(digitsVal p.1 : Int), p.2)
    else
      let p := scanDigits (c :: r)
      if p.1 = [] then none else some ((digitsVal p.1 : Int), p.2)

mutual
  /-- Parse one JSON value; recursion is structural on `fl`. -/
def scanVal : Nat → List Char → Option (Json × List Char)
    | 0, _ => none
    | fl + 1, s =>
      match dropWs s with
      | [] => none
      | c :: r =>
        if c = 'n' then
          match r with
          | 'u' :: 'l' :: 'l' :: r1 => some (.jnull, r1)
          | _ => none
        else if c = 't' then
          match r with
          | 'r' :: 'u' :: 'e' :: r1 => some (.jbool true, r1)
          | _ => none
        else if c = 'f' then
          match r with
          | 'a' :: 'l' :: 's' :: 'e' :: r1 => some (.jbool false, r1)
          | _ => none
        else if c = '"' then
          (scanStr r).map (fun p => (.jstr (String.mk p.1), p.2))
        else if c = '[' then
          match dropWs r with
          | [] => none
          | c1 :: r1 =>
            if c1 = ']' then some (.jarr [], r1)
            else
              match scanVal fl (c1 :: r1) with
              | none => none
              | some (v, r2) =>
                match scanATail fl r2 with
                | none => none
                | some (vs, r3) => some (.jarr (v :: vs), r3)
        else if c = '{' then
          match dropWs r with
          | [] => none
          | c1 :: r1 =>
            if c1 = '}' then some (.jobj [], r1)
            else
              match scanMember fl (c1 :: r1) with
              | none => none
              | some (k, v, r2) =>
                match scanOTail fl r2 with
                | none => none
                | some (ms, r3) => some (.jobj ((k, v) :: ms), r3)
        else scanInt (c :: r) |>.map (fun p => (.jnum p.1, p.2))
  /-- After an array element: `]` ends, `,` continues. -/
def scanATail : Nat → List Char → Option (List Json × List Char)
    | 0, _ => none
    | fl + 1, s =>
      match dropWs s with
      | [] => none
      | c :: r =>
        if c = ']' then some ([], r)
        else if c = ',' then
          match scanVal fl r with
          | none => none
          | some (v, r1) =>
            match scanATail fl r1 with
            | none => none
            | some (vs, r2) => some (v :: vs, r2)
        else none
  /-- One `"key": value` member. -/
def scanMember : Nat → List Char → Option (String × Json × List Char)
    | 0, _ => none
    | fl + 1, s =>
      match dropWs s with
      | [] => none
      | c :: r =>
        if c = '"' then
          match scanStr r with
          | none => none
          | some (k, r1) =>
            match dropWs r1 with
            | [] => none
            | c2 :: r2 =>
              if c2 = ':' then
                match scanVal fl r2 with
                | none => none
                | some (v, r3) => some (String.mk k, v, r3)
              else none
        else none
  /-- After an object member: `}` ends, `,` continues. -/
def scanOTail : Nat → List Char → Option (List (String × Json) × List Char)
    | 0, _ => none
    | fl + 1, s =>
      match dropWs s with
      | [] => none
      | c :: r =>
        if c = '}' then some ([], r)
        else if c = ',' then
          match scanMember fl r with
          | none => none
          | some (k, v, r1) =>
            match scanOTail fl r1 with
            | none => none
            | some (ms, r2) => some ((k, v) :: ms, r2)
        else none
end

/-- `json.loads` on characters: one value, then only whitespace. -/
def pyLoads (s : List Char) : Option Json :=
  match scanVal (s.length + 1) s with
  | some (j, r) => if dropWs r = [] then some j else none
  | none => none

/-- Head is not a decimal digit (so a parsed integer cannot leak into it). -/
def notDigHead : List Char → Bool
  | [] => true
  | c :: _ => !decDig c

/-! ## UTF-8 (`str.encode("utf-8")` / implicit decode inside `json.loads`) -/

/-- UTF-8 bytes of one unicode scalar value. -/
def utf8Char (c : Char) : List Nat :=
  let n := c.toNat
  if n < 128 then [n]
  else if n < 2048 then [192 + n / 64, 128 + n % 64]
  else if n < 65536 then [224 + n / 4096, 128 + n / 64 % 64, 128 + n % 64]
  else [240 + n / 262144, 128 + n / 4096 % 64, 128 + n / 64 % 64, 128 + n % 64]

/-- UTF-8 bytes of a character sequence. -/
def utf8Enc (cs : List Char) : List Nat := cs.flatMap utf8Char

mutual
  /-- UTF-8 decoding; `none` on malformed byte sequences. -/
def utf8Dec : List Nat → Option (List Char)
    | [] => some []
    | b :: r =>
      if b < 128 then (utf8Dec r).map (fun t => Char.ofNat b :: t)
      else if b < 192 then none
      else if b < 224 then utf8Dec2 b r
      else if b < 240 then utf8Dec3 b r
      else if b < 248 then utf8Dec4 b r
      else none
  /-- The continuation of a two-byte UTF-8 sequence. -/
def utf8Dec2 (b : Nat) : List Nat → Option (List Char)
    | b1 :: r1 =>
      if 128 ≤ b1 ∧ b1 < 192 then
        (utf8Dec r1).map (fun t => Char.ofNat ((b - 192) * 64 + (b1 - 128)) :: t)
      else none
    | _ => none
  /-- The continuation of a three-byte UTF-8 sequence. -/
def utf8Dec3 (b : Nat) : List Nat → Option (List Char)
    | b1 :: b2 :: r1 =>
      if (128 ≤ b1 ∧ b1 < 192) ∧ (128 ≤ b2 ∧ b2 < 192) then
        (utf8Dec r1).map
          (fun t => Char.ofNat (((b - 224) * 64 + (b1 - 128)) * 64 + (b2 - 128)) :: t)
      else none
    | _ => none
  /-- The continuation of a four-byte UTF-8 sequence. -/
def utf8Dec4 (b : Nat) : List Nat → Option (List Char)
    | b1 :: b2 :: b3 :: r1 =>
      if ((128 ≤ b1 ∧ b1 < 192) ∧ (128 ≤ b2 ∧ b2 < 192)) ∧ (128 ≤ b3 ∧ b3 < 192) then
        (utf8Dec r1).map
          (fun t =>
            Char.ofNat ((((b - 240) * 64 + (b1 - 128)) * 64 + (b2 - 128)) * 64 + (b3 - 128)) :: t)
      else none
    | _ => none
end

/-! ## Base64, URL-safe alphabet
(`base64.urlsafe_b64encode` / `base64.urlsafe_b64decode`) -/

/-- The URL-safe base64 alphabet. -/
def b64Alpha : List Char :=
  ("ABCDEFGHIJKLMNOPQRSTUVWXYZabcdefghijklmnopqrstuvwxyz0123456789-_").data

/-- Character of a 6-bit group. -/
def b64Char (k : Nat) : Char := b64Alpha.getD k 'A'

/-- 6-bit value of an alphabet character. -/
def b64Val (c : Char) : Option Nat := b64Alpha.indexOf? c

/-- Characters CPython's decoder keeps: the alphabet and padding; everything
else is discarded before decoding (`validate=False`, the default). -/
def b64Keep (c : Char) : Bool := b64Alpha.contains c || c = '='

/-- Encode bytes three at a time, padding the final group with `=`. -/
def b64Encode : List Nat → List Char
  | [] => []
  | [b0] => [b64Char (b0 / 4), b64Char (b0 % 4 * 16), '=', '=']
  | [b0, b1] => [b64Char (b0 / 4), b64Char (b0 % 4 * 16 + b1 / 16), b64Char (b1 % 16 * 4), '=']
  | b0 :: b1 :: b2 :: r =>
      b64Char (b0 / 4) :: b64Char (b0 % 4 * 16 + b1 / 16) ::
        b64Char (b1 % 16 * 4 + b2 / 64) :: b64Char (b2 % 64) :: b64Encode r

/-- Decode four characters at a time; `none` models `binascii.Error`
(incorrect padding or stray `=`). -/
def b64Groups : List Char → Option (List Nat)
  | [] => some []
  | c0 :: c1 :: c2 :: c3 :: r =>
    match b64Val c0, b64Val c1 with
    | some v0, some v1 =>
      if c2 = '=' then
        if c3 = '=' ∧ r = [] then some [v0 * 4 + v1 / 16] else none
      else
        match b64Val c2 with
        | some v2 =>
          if c3 = '=' then
            if r = [] then some [v0 * 4 + v1 / 16, v1 % 16 * 16 + v2 / 4] else none
          else
            match b64Val c3 with
            | some v3 =>
                (b64Groups r).map
                  (fun t => (v0 * 4 + v1 / 16) :: (v1 % 16 * 16 + v2 / 4) :: (v2 % 4 * 64 + v3) :: t)
            | none => none
        | none => none
    | _, _ => none
  | _ => none

/-- `base64.urlsafe_b64decode`: discard foreign characters, then decode,
erroring on a leftover partial group. -/
def b64Decode (s : List Char) : Option (List Nat) := b64Groups (s.filter b64Keep)

/-! ## The info/data payload codec

`encPayload` is `base64.urlsafe_b64encode(json.dumps(x).encode("utf-8"))` as a
`str`; `decPayload` is `json.loads(base64.urlsafe_b64decode(s))` (CPython's
`json.loads` decodes `bytes` input as UTF-8 first). -/

def encPayload (j : Json) : String := String.mk (b64Encode (utf8Enc (pyDumps j)))

def decPayload (s : String) : Option Json :=
  (b64Decode s.data).bind fun bs => (utf8Dec bs).bind fun cs => pyLoads cs

/-! ## Shared string constants (metadata keys, header names, labels) -/

def kId : String := "id"
def kText : String := "text"
def kIcon : String := "icon"
def kMetaField : String := "meta"
def kNonselectable : String := "nonselectable"
def kInfo : String := "info"
def kAction : String := "ACTION"
def kItemMeta : String := "ITEM_META"
def kLastActive : String := "last_active_menu"
def trueStr : String := "true"
def falseStr : String := "false"
def undefinedText : String := "[UNDEFINED]"
def dotStr : String := "."
def emptyStr : String := ""
def nlStr : String := "\n"
def nulStr : String := "\x00"
def usStr : String := "\x1f"
def promptHdr : String := "\x00prompt\x1f"
def markupHdrLine : String := "\x00markup-rows\x1ftrue"
def noInputHdr : String := "\x00no-custom\x1f"
def urgentHdr : String := "\x00urgent\x1f"
def activeHdr : String := "\x00active\x1f"
def retvInitial : String := "0"
def retvSelected : String := "1"
def retvCustomEntry : String := "2"
def actInitial174 : String := "INITIAL_SCRIPT_CALL"
def actSelected : String := "ENTRY_SELECTED"
def actCustomEntry : String := "CUSTOM_ENTRY"
def actInitialDec : String := "INITIAL_CALL"
def customKeyPre : String := "CUSTOM_KEY_"

/-! ## The process environment -/

/-- The three environment variables the codecs read (`os.getenv` result:
`none` = unset). -/
structure RofiEnv where
  retv : Option String
  data : Option String
  info : Option String

/-- Python truthiness of an optional string (`if rofi_data:`). -/
def truthy : Option String → Bool
  | none => false
  | some s => s ≠ ""

/-! ## `rofi_mode_16.RofiMode` -/

/-- `render_menu`: newline-join the emitted lines. -/
def renderMenu16 (items : List String) : String := String.intercalate nlStr items

def menuPrompt16 (text : String) : String := promptHdr ++ text

def menuEnableMarkup16 : String := markupHdrLine

def menuNoInput16 (val : Bool) : String :=
  noInputHdr ++ (if val then trueStr else falseStr)

def menuUrgent16 (num : Nat) : String := urgentHdr ++ String.mk (natChars (num + 1) num)

def menuActive16 (num : Nat) : String := activeHdr ++ String.mk (natChars (num + 1) num)

/-- `_menu_entry`: the display text, then optionally the US-joined fields. -/
def menuEntry16 (text : String) (fields : List (String × String)) : String :=
  if fields = [] then text
  else
    text ++ nulStr ++
      String.intercalate usStr (fields.map (fun f => f.1 ++ usStr ++ f.2))

/-- The `fields` dictionary `menu_item` builds: optional icon, searchable
text (`meta`), nonselectable flag, and always the base64 `info` payload. -/
def menuItemFields16 (icon : Option String) (searchableText : Option String)
    (nonselectable : Option Bool) (metaData : Json) : List (String × String) :=
  (match icon with | some i => [(kIcon, i)] | none => []) ++
  (match searchableText with | some s => [(kMetaField, s)] | none => []) ++
  (match nonselectable with
    | some b => [(kNonselectable, if b then trueStr else falseStr)]
    | none => []) ++
  [(kInfo, encPayload metaData)]

/-- `menu_item`: one rendered row. -/
def menuItem16 (text : String) (icon : Option String) (searchableText : Option String)
    (nonselectable : Option Bool) (metaData : Json) : String :=
  menuEntry16 text (menuItemFields16 icon searchableText nonselectable metaData)

/-- `rofi_mode_16.RofiMode.parse_meta`: decode `ROFI_DATA` when set, and on a
selected-entry action overlay the decoded `ROFI_INFO` via `dict.update`.
`none` models an exception escaping to the caller (decode errors, or
`.update` on/with a non-dict). -/
def parseMeta16 (env : RofiEnv) : Option Json :=
  match (if truthy env.data then decPayload (env.data.getD emptyStr)
         else some (Json.jobj [])) with
  | none => none
  | some d =>
    if env.retv = some retvSelected ∧ truthy env.info then
      match decPayload (env.info.getD emptyStr) with
      | none => none
      | some r =>
        match d, r with
        | .jobj dm, .jobj rm => some (Json.jobj (dupd dm rm))
        | _, _ => none
    else some d

/-! ## `rofi_mode_174.RofiMode` -/

/-- Python `int(s)` on a string: optional sign, then decimal digits
(`none` models `ValueError`). -/
def pyIntOf (s : String) : Option Int :=
  match s.data with
  | '-' :: ds => if ds ≠ [] ∧ ds.all decDig then some (-(digitsVal ds : Int)) else none
  | '+' :: ds => if ds ≠ [] ∧ ds.all decDig then some ((digitsVal ds : Int)) else none
  | ds => if ds ≠ [] ∧ ds.all decDig then some ((digitsVal ds : Int)) else none

/-- The `ACTION` label `rofi_mode_174.parse_meta` computes from `ROFI_RETV`:
`"0"`, `"1"`, `"2"` by string comparison, otherwise
`f"CUSTOM_KEY_{int(rofi_retv) - 9}"` (`int(None)` raises, hence `none`). -/
def actionName174 (retv : Option String) : Option String :=
  match retv with
  | some s =>
      if s = retvInitial then some actInitial174
      else if s = retvSelected then some actSelected
      else if s = retvCustomEntry then some actCustomEntry
      else (pyIntOf s).map (fun k => customKeyPre ++ String.mk (intChars (k - 9)))
  | none => none

/-- `rofi_mode_174.RofiMode.parse_meta`.  The source computes `meta` (decoded
`ROFI_DATA` when the action is not the initial call, the `ACTION` label, and
the decoded `ROFI_INFO` under `ITEM_META`) — and then ends with `return {}`,
discarding `meta`.  Exceptions raised while computing it still propagate
(`none`). -/
def parseMeta174 (env : RofiEnv) : Option Json :=
  match (if env.retv ≠ some retvInitial ∧ truthy env.data then
           decPayload (env.data.getD emptyStr)
         else some (Json.jobj [])) with
  | none => none
  | some mj =>
    match mj with
    | .jobj mm =>
      match actionName174 env.retv with
      | none => none
      | some act =>
        let mm1 := dset kAction (Json.jstr act) mm
        if truthy env.info then
          match decPayload (env.info.getD emptyStr) with
          | none => none
          | some r =>
            let _mm2 := dset kItemMeta r mm1
            some (Json.jobj [])
        else some (Json.jobj [])
    | _ => none

/-! ## `rofi_parser/parser_1_7_4/decoder.py`

`decode_script_input` takes the `ROFI_RETV` string its `get_env` reads from
the environment and compares it with the integers `0`, `1`, `2`.  In Python,
`==` between a `str` (or `None`) and an `int` is always `False`, which
`pyStrIntEq` records.  (`get_env` itself would already raise
`AttributeError`: it calls `os.env.get`, and the `os` module has no `env`
attribute; the mapping below is the module's intended decode logic applied
to the environment value.) -/

/-- Python `==` between an optional string and an integer. -/
def pyStrIntEq (_ : Option String) (_ : Int) : Bool := false

/-- The `ACTION` computed by `decode_script_input` from the `ROFI_RETV`
environment string. -/
def decoderAction (retv : Option String) : Option String :=
  if pyStrIntEq retv 0 then some actInitialDec
  else if pyStrIntEq retv 1 then some actSelected
  else if pyStrIntEq retv 2 then some actCustomEntry
  else
    match retv with
    | none => none
    | some s => (pyIntOf s).map (fun k => customKeyPre ++ String.mk (intChars (k - 9)))

/-! ## `MetaStore` (menu.py)

The constructor decodes the environment through the selected codec and keeps
the resulting dictionary as `_meta`; `raw` is `raw_script_input`.  `session`
models `getattr(meta, "session", None)`: the class never defines a `session`
attribute, so for every store the constructor produces it is `none`. -/

structure MetaSt where
  meta : List (String × Json)
  raw : String
  session : Option (List (String × Json))

/-- `".".join(item_id)`. -/
def dotJoin (ids : List String) : String := String.intercalate dotStr ids

/-- `selected_id`: `self._meta.get("id")`. -/
def MetaSt.selectedId (st : MetaSt) : Option Json := dget kId st.meta

/-- `user_input`: the raw script input when `_meta` is empty (falsy), else
`None`. -/
def MetaSt.userInput (st : MetaSt) : Option String :=
  if st.meta.isEmpty then some st.raw else none

/-- `get_state`. -/
def getStateOf (st : MetaSt) (itemId : List String) : Option Json :=
  dget (dotJoin itemId) st.meta

/-- `set_state`: writes only a non-`None` state. -/
def setStateOf (st : MetaSt) (itemId : List String) (v : Option Json) : MetaSt :=
  match v with
  | none => st
  | some x => { st with meta := dset (dotJoin itemId) x st.meta }

/-- `MetaStore(raw_script_input, rofi_version="1.6")`: decode through the
1.6 codec (the 1.5 default's module is not part of the sources).  A decode
exception propagates out of the constructor (`none`); metadata that is not a
dictionary is outside the model (every later `_meta.get` would raise). -/
def initMetaStore16 (raw : String) (env : RofiEnv) : Option MetaSt :=
  match parseMeta16 env with
  | some (.jobj mm) => some ⟨mm, raw, none⟩
  | _ => none

/-- The selected id as the list of path segments, when the stored `"id"`
metadata is an array of strings — the only shape the system itself writes.
(`none` covers both an absent id, which `propagate_select` would crash
slicing, and non-string-array values, which never compare equal to an
item id.) -/
def MetaSt.selectedIdStrs (st : MetaSt) : Option (List String) :=
  match dget kId st.meta with
  | some (.jarr xs) => strListOf xs
  | _ => none
where
  strListOf : List Json → Option (List String)
    | [] => some []
    | .jstr s :: t => (strListOf t).map (fun l => s :: l)
    | _ => none

/-! ## `Operation` and the control codes

`constants.py` is not among the sources. Modelled from the spec: the
operation codes are `{REFRESH_MENU, BACK_TO_PARENT_MENU, EXIT, OUTPUT}`,
distinct values threaded through the traversal. -/

inductive OpCode where
  | refreshMenu : OpCode
  | backToParent : OpCode
  | exitApp : OpCode
  | output : OpCode
deriving DecidableEq

/-- `Operation(code, data=None)`. -/
structure Operation where
  code : OpCode
  data : Option String
deriving DecidableEq

/-! ## The bound menu tree (menu.py)

Bound (post-`build`) values: every node carries its resolved id.  An item's
behaviour is its class: plain `Item` (on_select requests a refresh),
`BackItem`, `ExitItem`, a `NestedMenu` owning a bound sub-menu, or — since
`on_select` is an overridable hook — a subclass returning an arbitrary fixed
`Operation` (`custom`).  `Delimiter` is a plain item with preset text and
`nonselectable`, so it needs no kind of its own.  The `flags` set is split
into its two queried members (`active`/`urgent`). -/

mutual
inductive MItem : Type where
    | mk : List String → Option String → Option String → Option String →
        Bool → Bool → Bool → MKind → MItem
inductive MKind : Type where
    | plain : MKind
    | backItem : MKind
    | exitItem : MKind
    | custom : Operation → MKind
    | nested : MMenu → MKind
inductive MMenu : Type where
    | mk : List String → String → Bool → List MItem → MMenu
end

def MItem.idOf : MItem → List String
  | .mk i _ _ _ _ _ _ _ => i
def MItem.textOf : MItem → Option String
  | .mk _ t _ _ _ _ _ _ => t
def MItem.iconOf : MItem → Option String
  | .mk _ _ ic _ _ _ _ _ => ic
def MItem.searchOf : MItem → Option String
  | .mk _ _ _ s _ _ _ _ => s
def MItem.nonselOf : MItem → Bool
  | .mk _ _ _ _ n _ _ _ => n
def MItem.activeOf : MItem → Bool
  | .mk _ _ _ _ _ a _ _ => a
def MItem.urgentOf : MItem → Bool
  | .mk _ _ _ _ _ _ u _ => u
def MItem.kindOf : MItem → MKind
  | .mk _ _ _ _ _ _ _ k => k

def MMenu.idOf : MMenu → List String
  | .mk i _ _ _ => i
def MMenu.promptOf : MMenu → String
  | .mk _ p _ _ => p
def MMenu.allowInputOf : MMenu → Bool
  | .mk _ _ a _ => a
def MMenu.itemsOf : MMenu → List MItem
  | .mk _ _ _ its => its

/-! ### Rendering

`Item.handle_render` is pre_render (a `load` that touches only the item's
own `state`/`loadCount`, never the MetaStore — see the instrumented model
below for the load-at-most-once claim), then `render` (`self.text` or the
`"[UNDEFINED]"` placeholder; no base class reads `state`), then a no-op
`post_render`. -/

/-- A bound item's rendered display text. -/
def itemRenderText (it : MItem) : String := it.textOf.getD undefinedText

/-- The `meta_data` dictionary `Menu.render` passes to `menu_item`:
`{**common_meta, "text": text, "id": item.id}`. -/
def rowMeta (mm : List (String × Json)) (text : String) (iid : List String) :
    List (String × Json) :=
  dupd mm [(kText, Json.jstr text), (kId, Json.jarr (iid.map Json.jstr))]

/-- The `\0active\x1f{num}` / `\0urgent\x1f{num}` header lines, in item
order, active before urgent for each item. -/
def markLines (num : Nat) : List MItem → List String
  | [] => []
  | it :: t =>
      (if it.activeOf then [menuActive16 num] else []) ++
      (if it.urgentOf then [menuUrgent16 num] else []) ++
      markLines (num + 1) t

/-- `Menu.render` (with the 1.6 codec): header lines, style marks, then one
`menu_item` row per item with the merged per-row metadata. -/
def menuRenderString (m : MMenu) (st : MetaSt) : String :=
  let rendered := m.itemsOf.map itemRenderText
  let header := [menuPrompt16 m.promptOf, menuEnableMarkup16,
    menuNoInput16 (!m.allowInputOf)]
  let rows := List.zipWith
    (fun text it => menuItem16 text it.iconOf it.searchOf (some it.nonselOf)
      (Json.jobj (rowMeta st.meta text it.idOf)))
    rendered m.itemsOf
  renderMenu16 (header ++ markLines 0 m.itemsOf ++ rows)

/-- `Menu.post_render`: stamp `last_active_menu` into `meta.session` — but
only when a truthy `session` attribute exists, which `MetaStore` never
defines. -/
def menuPostRender (m : MMenu) (st : MetaSt) : MetaSt :=
  match st.session with
  | some s =>
      if !s.isEmpty then
        { st with session := some (dset kLastActive (Json.jarr (m.idOf.map Json.jstr)) s) }
      else st
  | none => st

/-- `Menu.handle_render`: render, then the post-render side effect. -/
def menuHandleRender (m : MMenu) (st : MetaSt) : String × MetaSt :=
  (menuRenderString m st, menuPostRender m st)

/-! ### Selection routing

`Item.handle_select` is pre_select (`load`: the `loaded` guard is always
`False`, the source never sets it) → `on_select` → post_select (`store`).
For the base classes `on_select` never touches `state`, so the metadata
effect is exactly `set_state(id, get_state(id))`. -/

/-- The MetaStore effect of `pre_select` + `post_select` around a state-free
`on_select`. -/
def itemSelectStore (iid : List String) (st : MetaSt) : MetaSt :=
  setStateOf st iid (getStateOf st iid)

/-- The tail of `NestedMenu.handle_select` / `propagate_user_input`: a
`REFRESH_MENU` outcome becomes an OUTPUT of the sub-menu's render, a
`BACK_TO_PARENT_MENU` outcome an OUTPUT of the enclosing parent menu's
render; anything else passes through. -/
def nestedRewrite (op : Operation) (st : MetaSt) (sub parent : MMenu) :
    Operation × MetaSt :=
  if op.code = .refreshMenu then
    let pr := menuHandleRender sub st
    (⟨.output, some pr.1⟩, pr.2)
  else if op.code = .backToParent then
    let pr := menuHandleRender parent st
    (⟨.output, some pr.1⟩, pr.2)
  else (op, st)

mutual
  /-- `handle_select` of one bound item (`parent` is its `parent_menu`
  back-reference). `none` models an exception escaping. -/
def itemHandleSelect : MItem → MMenu → MetaSt → Option (Operation × MetaSt)
    | .mk iid _ _ _ _ _ _ kind, parent, st =>
      match kind with
      | .plain => some (⟨.refreshMenu, none⟩, itemSelectStore iid st)
      | .backItem => some (⟨.backToParent, none⟩, itemSelectStore iid st)
      | .exitItem => some (⟨.exitApp, none⟩, itemSelectStore iid st)
      | .custom op => some (op, itemSelectStore iid st)
      | .nested sub =>
        if st.selectedIdStrs = some iid then
          -- self-targeted: pre_select, NestedMenu.on_select (OUTPUT of the
          -- sub-menu's render), post_select, then the rewrite tail
          let s0 := getStateOf st iid
          let pr := menuHandleRender sub st
          let st2 := setStateOf pr.2 iid s0
          some (nestedRewrite ⟨.output, some pr.1⟩ st2 sub parent)
        else
          match menuPropagateSelect sub st with
          | none => none
          | some (op, st1) => some (nestedRewrite op st1 sub parent)
  /-- `Menu.propagate_select`: scan the bound items in order. -/
def menuPropagateSelect : MMenu → MetaSt → Option (Operation × MetaSt)
    | .mk mid prompt allow items, st =>
        selLoop (.mk mid prompt allow items) st.selectedIdStrs st items
  /-- The `for item in self.items` loop body of `propagate_select`: on the
  first prefix match delegate and rewrite `REFRESH_MENU` to an OUTPUT of
  this menu's render; if no item matches, fall back to rendering this menu. -/
def selLoop : MMenu → Option (List String) → MetaSt → List MItem →
      Option (Operation × MetaSt)
    | parent, _, st, [] =>
        let pr := menuHandleRender parent st
        some (⟨.output, some pr.1⟩, pr.2)
    | parent, sidOpt, st, it :: rest =>
        match sidOpt with
        | none => none  -- `item_id[: len(item.id)]` on a non-id raises
        | some sid =>
          if it.idOf = sid.take it.idOf.length then
            match itemHandleSelect it parent st with
            | none => none
            | some (op, st1) =>
              if op.code = .refreshMenu then
                let pr := menuHandleRender parent st1
                some (⟨.output, some pr.1⟩, pr.2)
              else some (op, st1)
          else selLoop parent sidOpt st rest
end

/-! ## The instrumented bound item (Item lifecycle, menu.py)

`BItem` carries the source's `state` and `loaded` fields plus a ghost
counter `loadCount`, incremented exactly where the source calls
`self.load(meta)`, so "load runs at most once" is statable. -/

structure BItem where
  iid : List String
  text : Option String
  state : Option Json
  loaded : Bool
  loadCount : Nat

/-- `Item.load`: read this item's state slice (ghost counter bumped). -/
def bLoad (st : MetaSt) (it : BItem) : BItem :=
  { it with state := getStateOf st it.iid, loadCount := it.loadCount + 1 }

/-- `Item.pre_render`: load when not yet `loaded` (the source never sets
`loaded`, so this guard always passes). -/
def bPreRender (st : MetaSt) (it : BItem) : BItem :=
  if !it.loaded then bLoad st it else it

/-- `Item.handle_render`: pre_render, render (`text` or the placeholder),
no-op post_render. -/
def bHandleRender (st : MetaSt) (it : BItem) : String × BItem :=
  let it1 := bPreRender st it
  (it1.text.getD undefinedText, it1)

/-- `Item.pre_select`: same guard as `pre_render`. -/
def bPreSelect (st : MetaSt) (it : BItem) : BItem :=
  if !it.loaded then bLoad st it else it

/-- `Item.handle_select` with the default `on_select` (a refresh request):
pre_select, on_select, then `store` writes the state back. -/
def bHandleSelect (st : MetaSt) (it : BItem) : Operation × BItem × MetaSt :=
  let it1 := bPreSelect st it
  (⟨.refreshMenu, none⟩, it1, setStateOf st it1.iid it1.state)

/-- `Item.build`: copy the template, resolve the id (an explicit one wins,
Python `or` also replaces an empty id), link the parent; `state`, `loaded`
and the ghost counter are untouched — `build` never loads. -/
def bBuild (template : BItem) (parentId : List String) (posId : String) : BItem :=
  { template with
      iid := if template.iid ≠ [] then template.iid else parentId ++ [posId] }


/-! ## Concrete fixtures for the proofs over closed inputs -/

def segRoot : String := "root"
def seg0 : String := "0"
def segX : String := "x"

/-! # Theorems -/

/-! ## Decimal digits -/

theorem decDigit_toNat (k : Nat) (h : k < 10) : (decDigit k).toNat = 48 + k := by
  match k, h with
  | 0, _ => decide
  | 1, _ => decide
  | 2, _ => decide
  | 3, _ => decide
  | 4, _ => decide
  | 5, _ => decide
  | 6, _ => decide
  | 7, _ => decide
  | 8, _ => decide
  | 9, _ => decide

theorem decDig_decDigit (k : Nat) (h : k < 10) : decDig (decDigit k) = true := by
  simp [decDig, decDigit_toNat k h]
  omega

theorem natChars_digits : ∀ (fl n : Nat), ∀ c ∈ natChars fl n, decDig c = true := by
  intro fl
  induction fl with
  | zero => intro n c hc; simp [natChars] at hc
  | succ fl ih =>
      intro n c hc
      by_cases h : n < 10
      · simp [natChars, h] at hc
        subst hc
        exact decDig_decDigit n h
      · simp [natChars, h] at hc
        rcases hc with hc | hc
        · exact ih _ c hc
        · subst hc
          exact decDig_decDigit _ (Nat.mod_lt _ (by omega))

theorem natChars_ne_nil (fl n : Nat) (h : n < fl) : natChars fl n ≠ [] := by
  match fl, h with
  | fl + 1, _ =>
      by_cases h10 : n < 10 <;> simp [natChars, h10]

theorem digitsVal_snoc (ds : List Char) (c : Char) :
    digitsVal (ds ++ [c]) = digitsVal ds * 10 + (c.toNat - 48) := by
  simp [digitsVal, List.foldl_append]

theorem digitsVal_natChars : ∀ (fl n : Nat), n < fl → digitsVal (natChars fl n) = n := by
  intro fl
  induction fl with
  | zero => omega
  | succ fl ih =>
      intro n h
      by_cases h10 : n < 10
      · have := decDigit_toNat n h10
        simp [natChars, h10, digitsVal, this]
      · have hrec : digitsVal (natChars fl (n / 10)) = n / 10 := ih _ (by omega)
        have hd := decDigit_toNat (n % 10) (Nat.mod_lt _ (by omega))
        simp [natChars, h10, digitsVal_snoc, hrec, hd]
        omega

theorem natChars_head (fl n : Nat) (h : n < fl) :
    ∃ c t, natChars fl n = c :: t ∧ decDig c = true := by
  match hc : natChars fl n with
  | [] => exact absurd hc (natChars_ne_nil fl n h)
  | c :: t =>
      exact ⟨c, t, rfl, natChars_digits fl n c (hc ▸ List.mem_cons_self ..)⟩

/-! ## `scanDigits` and `scanInt` invert `intChars` -/

theorem scanDigits_stop (rest : List Char) (h : notDigHead rest = true) :
    scanDigits rest = ([], rest) := by
  match rest with
  | [] => rfl
  | c :: t =>
      simp [notDigHead] at h
      simp [scanDigits, h]

theorem scanDigits_run (ds : List Char) (hds : ∀ c ∈ ds, decDig c = true)
    (rest : List Char) (hrest : notDigHead rest = true) :
    scanDigits (ds ++ rest) = (ds, rest) := by
  induction ds with
  | nil => simpa using scanDigits_stop rest hrest
  | cons c t ih =>
      have hc : decDig c = true := hds c (by simp)
      have ht := ih (fun x hx => hds x (by simp [hx]))
      simp [scanDigits, hc, ht]

theorem decDig_vals {c : Char} (h : decDig c = true) : 48 ≤ c.toNat ∧ c.toNat ≤ 57 := by
  simp [decDig] at h
  omega

theorem decDig_ne_minus {c : Char} (h : decDig c = true) : c ≠ '-' := by
  intro he
  subst he
  exact absurd h (by decide)

theorem scanInt_intChars (i : Int) (rest : List Char) (h : notDigHead rest = true) :
    scanInt (intChars i ++ rest) = some (i, rest) := by
  by_cases hneg : i < 0
  · have harg : intChars i ++ rest = '-' :: (natChars (i.natAbs + 1) i.natAbs ++ rest) := by
      simp [intChars, hneg]
    have hrun := scanDigits_run _ (natChars_digits (i.natAbs + 1) i.natAbs) rest h
    have hne := natChars_ne_nil (i.natAbs + 1) i.natAbs (by omega)
    rw [harg]
    simp [scanInt, hrun, hne, digitsVal_natChars (i.natAbs + 1) i.natAbs (by omega)]
    simp only [Int.abs_eq_natAbs]
    omega
  · obtain ⟨c, t, hct, hc⟩ := natChars_head (i.toNat + 1) i.toNat (by omega)
    have harg : intChars i ++ rest = c :: (t ++ rest) := by
      simp [intChars, hneg, hct]
    have hrun := scanDigits_run _ (natChars_digits (i.toNat + 1) i.toNat) rest h
    rw [hct] at hrun
    have hvals := digitsVal_natChars (i.toNat + 1) i.toNat (by omega)
    rw [hct] at hvals
    rw [harg]
    rw [List.cons_append] at hrun
    simp [scanInt, decDig_ne_minus hc, hrun, hvals]
    omega

/-! ## `scanStr` inverts `jsonEsc` -/

theorem hexValOf_hexCharOf (k : Nat) (h : k < 16) : hexValOf (hexCharOf k) = some k := by
  match k, h with
  | 0, _ => decide
  | 1, _ => decide
  | 2, _ => decide
  | 3, _ => decide
  | 4, _ => decide
  | 5, _ => decide
  | 6, _ => decide
  | 7, _ => decide
  | 8, _ => decide
  | 9, _ => decide
  | 10, _ => decide
  | 11, _ => decide
  | 12, _ => decide
  | 13, _ => decide
  | 14, _ => decide
  | 15, _ => decide
  | k + 16, h => exact absurd h (by omega)

theorem scanStr_esc (c : Char) (r : List Char) :
    scanStr (jsonEsc c ++ r) = (scanStr r).map (fun p => (c :: p.1, p.2)) := by
  by_cases hq : c = '"'
  · subst hq
    simp [jsonEsc, scanStr, scanEsc]
  · by_cases hb : c = '\\'
    · subst hb
      simp [jsonEsc, scanStr, scanEsc]
    · by_cases hctl : c.toNat < 32
      · have h16 : ∀ k : Nat, k % 16 < 16 := fun k => Nat.mod_lt _ (by omega)
        have hhi := hexValOf_hexCharOf (c.toNat / 16) (by omega)
        have hlo := hexValOf_hexCharOf (c.toNat % 16) (h16 _)
        have harith : c.toNat / 16 * 16 + c.toNat % 16 = c.toNat := by omega
        have h0 : hexValOf '0' = some 0 := by decide
        simp only [jsonEsc, if_neg hq, if_neg hb, if_pos hctl, List.cons_append,
          List.nil_append]
        simp [scanStr, scanEsc, h0, hhi, hlo, harith, Char.ofNat_toNat]
      · simp only [jsonEsc, if_neg hq, if_neg hb, if_neg hctl, List.cons_append,
          List.nil_append]
        simp [scanStr, hq, hb]

theorem scanStr_body (cs : List Char) : ∀ r : List Char,
    scanStr (cs.flatMap jsonEsc ++ '"' :: r) = some (cs, r) := by
  induction cs with
  | nil =>
      intro r
      simp [scanStr]
  | cons c t ih =>
      intro r
      rw [List.flatMap_cons, List.append_assoc, scanStr_esc, ih]
      rfl

/-! ## Heads of serialised values -/

theorem decDig_dispatch {c : Char} (h : decDig c = true) :
    c ≠ 'n' ∧ c ≠ 't' ∧ c ≠ 'f' ∧ c ≠ '"' ∧ c ≠ '[' ∧ c ≠ '{' ∧
    jWs c = false ∧ c ≠ ']' ∧ c ≠ '}' ∧ c ≠ ',' ∧ c ≠ '-' := by
  have hsp : c ≠ ' ' := by intro he; subst he; exact absurd h (by decide)
  have hnl : c ≠ '\n' := by intro he; subst he; exact absurd h (by decide)
  have htb : c ≠ '\t' := by intro he; subst he; exact absurd h (by decide)
  have hcr : c ≠ '\r' := by intro he; subst he; exact absurd h (by decide)
  refine ⟨?_, ?_, ?_, ?_, ?_, ?_, by simp [jWs, hsp, hnl, htb, hcr], ?_, ?_, ?_, ?_⟩
  all_goals (intro he; subst he; exact absurd h (by decide))

theorem pyDumps_head (j : Json) :
    ∃ c t, pyDumps j = c :: t ∧ jWs c = false ∧ c ≠ ']' ∧ c ≠ '}' := by
  cases j with
  | jnull => exact ⟨'n', _, rfl, by decide, by decide, by decide⟩
  | jbool b =>
      cases b with
      | true => refine ⟨'t', _, rfl, ?_, ?_, ?_⟩ <;> decide
      | false => refine ⟨'f', _, rfl, ?_, ?_, ?_⟩ <;> decide
  | jstr s => exact ⟨'"', _, rfl, by decide, by decide, by decide⟩
  | jnum i =>
      by_cases hneg : i < 0
      · refine ⟨'-', natChars (i.natAbs + 1) i.natAbs, ?_, by decide, by decide, by decide⟩
        simp [pyDumps, intChars, hneg]
      · obtain ⟨c, t, hct, hc⟩ := natChars_head (i.toNat + 1) i.toNat (by omega)
        obtain ⟨_, _, _, _, _, _, hws, hrb, hcb, _, _⟩ := decDig_dispatch hc
        refine ⟨c, t, ?_, hws, hrb, hcb⟩
        simp [pyDumps, intChars, hneg, hct]
  | jarr es =>
      cases es with
      | nil => exact ⟨'[', _, rfl, by decide, by decide, by decide⟩
      | cons x xs => exact ⟨'[', _, rfl, by decide, by decide, by decide⟩
  | jobj ms =>
      cases ms with
      | nil => exact ⟨'{', _, rfl, by decide, by decide, by decide⟩
      | cons m t => exact ⟨'{', _, rfl, by decide, by decide, by decide⟩

theorem dropWs_cons {c : Char} (h : jWs c = false) (r : List Char) :
    dropWs (c :: r) = c :: r := by
  simp [dropWs, h]

theorem dropWs_dumps (j : Json) (x : List Char) :
    dropWs (pyDumps j ++ x) = pyDumps j ++ x := by
  obtain ⟨c, t, hct, hws, _, _⟩ := pyDumps_head j
  rw [hct, List.cons_append, dropWs_cons hws]

theorem notDigHead_dumpTail (xs : List Json) (x : List Char) :
    notDigHead (dumpTail xs ++ ']' :: x) = true := by
  cases xs with
  | nil => simp [dumpTail, notDigHead, decDig]
  | cons a t => simp [dumpTail, notDigHead, decDig]

theorem notDigHead_dumpMTail (ms : List (String × Json)) (x : List Char) :
    notDigHead (dumpMTail ms ++ '}' :: x) = true := by
  cases ms with
  | nil => simp [dumpMTail, notDigHead, decDig]
  | cons a t =>
      obtain ⟨k, v⟩ := a
      simp [dumpMTail, notDigHead, decDig]

theorem scanVal_ws (fl : Nat) (s : List Char) : scanVal fl (' ' :: s) = scanVal fl s := by
  cases fl with
  | zero => rfl
  | succ g =>
      have h : dropWs (' ' :: s) = dropWs s := by simp [dropWs, jWs]
      simp only [scanVal, h]

theorem scanMember_ws (fl : Nat) (s : List Char) :
    scanMember fl (' ' :: s) = scanMember fl s := by
  cases fl with
  | zero => rfl
  | succ g =>
      have h : dropWs (' ' :: s) = dropWs s := by simp [dropWs, jWs]
      simp only [scanMember, h]

/-! ## One-step unfoldings of the parser (definitional) -/

theorem scanVal_succ (g : Nat) {s : List Char} {c : Char} {r : List Char}
    (h : dropWs s = c :: r) :
    scanVal (g + 1) s =
      (if c = 'n' then
        match r with
        | 'u' :: 'l' :: 'l' :: r1 => some (.jnull, r1)
        | _ => none
      else if c = 't' then
        match r with
        | 'r' :: 'u' :: 'e' :: r1 => some (.jbool true, r1)
        | _ => none
      else if c = 'f' then
        match r with
        | 'a' :: 'l' :: 's' :: 'e' :: r1 => some (.jbool false, r1)
        | _ => none
      else if c = '"' then
        (scanStr r).map (fun p => (.jstr (String.mk p.1), p.2))
      else if c = '[' then
        match dropWs r with
        | [] => none
        | c1 :: r1 =>
          if c1 = ']' then some (.jarr [], r1)
          else
            match scanVal g (c1 :: r1) with
            | none => none
            | some (v, r2) =>
              match scanATail g r2 with
              | none => none
              | some (vs, r3) => some (.jarr (v :: vs), r3)
      else if c = '{' then
        match dropWs r with
        | [] => none
        | c1 :: r1 =>
          if c1 = '}' then some (.jobj [], r1)
          else
            match scanMember g (c1 :: r1) with
            | none => none
            | some (k, v, r2) =>
              match scanOTail g r2 with
              | none => none
              | some (ms, r3) => some (.jobj ((k, v) :: ms), r3)
      else scanInt (c :: r) |>.map (fun p => (.jnum p.1, p.2))) := by
  rw [show scanVal (g + 1) s =
      (match dropWs s with
       | [] => none
       | c :: r =>
         if c = 'n' then
           match r with
           | 'u' :: 'l' :: 'l' :: r1 => some (.jnull, r1)
           | _ => none
         else if c = 't' then
           match r with
           | 'r' :: 'u' :: 'e' :: r1 => some (.jbool true, r1)
           | _ => none
         else if c = 'f' then
           match r with
           | 'a' :: 'l' :: 's' :: 'e' :: r1 => some (.jbool false, r1)
           | _ => none
         else if c = '"' then
           (scanStr r).map (fun p => (.jstr (String.mk p.1), p.2))
         else if c = '[' then
           match dropWs r with
           | [] => none
           | c1 :: r1 =>
             if c1 = ']' then some (.jarr [], r1)
             else
               match scanVal g (c1 :: r1) with
               | none => none
               | some (v, r2) =>
                 match scanATail g r2 with
                 | none => none
                 | some (vs, r3) => some (.jarr (v :: vs), r3)
         else if c = '{' then
           match dropWs r with
           | [] => none
           | c1 :: r1 =>
             if c1 = '}' then some (.jobj [], r1)
             else
               match scanMember g (c1 :: r1) with
               | none => none
               | some (k, v, r2) =>
                 match scanOTail g r2 with
                 | none => none
                 | some (ms, r3) => some (.jobj ((k, v) :: ms), r3)
         else scanInt (c :: r) |>.map (fun p => (.jnum p.1, p.2))) from rfl, h]

theorem scanATail_succ (g : Nat) {s : List Char} {c : Char} {r : List Char}
    (h : dropWs s = c :: r) :
    scanATail (g + 1) s =
      (if c = ']' then some ([], r)
       else if c = ',' then
         match scanVal g r with
         | none => none
         | some (v, r1) =>
           match scanATail g r1 with
           | none => none
           | some (vs, r2) => some (v :: vs, r2)
       else none) := by
  rw [show scanATail (g + 1) s =
      (match dropWs s with
       | [] => none
       | c :: r =>
         if c = ']' then some ([], r)
         else if c = ',' then
           match scanVal g r with
           | none => none
           | some (v, r1) =>
             match scanATail g r1 with
             | none => none
             | some (vs, r2) => some (v :: vs, r2)
         else none) from rfl, h]

theorem scanOTail_succ (g : Nat) {s : List Char} {c : Char} {r : List Char}
    (h : dropWs s = c :: r) :
    scanOTail (g + 1) s =
      (if c = '}' then some ([], r)
       else if c = ',' then
         match scanMember g r with
         | none => none
         | some (k, v, r1) =>
           match scanOTail g r1 with
           | none => none
           | some (ms, r2) => some ((k, v) :: ms, r2)
       else none) := by
  rw [show scanOTail (g + 1) s =
      (match dropWs s with
       | [] => none
       | c :: r =>
         if c = '}' then some ([], r)
         else if c = ',' then
           match scanMember g r with
           | none => none
           | some (k, v, r1) =>
             match scanOTail g r1 with
             | none => none
             | some (ms, r2) => some ((k, v) :: ms, r2)
         else none) from rfl, h]

theorem scanMember_succ (g : Nat) {s : List Char} {c : Char} {r : List Char}
    (h : dropWs s = c :: r) :
    scanMember (g + 1) s =
      (if c = '"' then
        match scanStr r with
        | none => none
        | some (k, r1) =>
          match dropWs r1 with
          | [] => none
          | c2 :: r2 =>
            if c2 = ':' then
              match scanVal g r2 with
              | none => none
              | some (v, r3) => some (String.mk k, v, r3)
            else none
       else none) := by
  rw [show scanMember (g + 1) s =
      (match dropWs s with
       | [] => none
       | c :: r =>
         if c = '"' then
           match scanStr r with
           | none => none
           | some (k, r1) =>
             match dropWs r1 with
             | [] => none
             | c2 :: r2 =>
               if c2 = ':' then
                 match scanVal g r2 with
                 | none => none
                 | some (v, r3) => some (String.mk k, v, r3)
               else none
         else none) from rfl, h]

theorem intChars_head (i : Int) :
    ∃ c t, intChars i = c :: t ∧ (c = '-' ∨ decDig c = true) := by
  by_cases hneg : i < 0
  · exact ⟨'-', natChars (i.natAbs + 1) i.natAbs, by simp [intChars, hneg], Or.inl rfl⟩
  · obtain ⟨c, t, hct, hc⟩ := natChars_head (i.toNat + 1) i.toNat (by omega)
    exact ⟨c, t, by simp [intChars, hneg, hct], Or.inr hc⟩

/-! ## The codec round-trip: `scanVal` inverts `pyDumps` -/

mutual
theorem rtVal : ∀ (j : Json) (fl : Nat) (rest : List Char),
    (pyDumps j).length < fl → notDigHead rest = true →
    scanVal fl (pyDumps j ++ rest) = some (j, rest)
  | .jnull, 0, _, hf, _ => absurd hf (Nat.not_lt_zero _)
  | .jnull, g + 1, rest, _, _ => by
      rw [show pyDumps Json.jnull ++ rest = 'n' :: 'u' :: 'l' :: 'l' :: rest from rfl]
      rfl
  | .jbool true, 0, _, hf, _ => absurd hf (Nat.not_lt_zero _)
  | .jbool true, g + 1, rest, _, _ => by
      rw [show pyDumps (Json.jbool true) ++ rest = 't' :: 'r' :: 'u' :: 'e' :: rest from rfl]
      rfl
  | .jbool false, 0, _, hf, _ => absurd hf (Nat.not_lt_zero _)
  | .jbool false, g + 1, rest, _, _ => by
      rw [show pyDumps (Json.jbool false) ++ rest
          = 'f' :: 'a' :: 'l' :: 's' :: 'e' :: rest from rfl]
      rfl
  | .jnum i, 0, _, hf, _ => absurd hf (Nat.not_lt_zero _)
  | .jnum i, g + 1, rest, _, hrest => by
      obtain ⟨c, t, hct, hcase⟩ := intChars_head i
      have harg : pyDumps (Json.jnum i) ++ rest = c :: (t ++ rest) := by
        show intChars i ++ rest = c :: (t ++ rest)
        rw [hct]
        rfl
      have hback : c :: (t ++ rest) = intChars i ++ rest := by
        rw [hct]
        rfl
      rcases hcase with hdash | hdig
      · subst hdash
        rw [harg, scanVal_succ g (dropWs_cons (by decide) _)]
        rw [if_neg (by decide), if_neg (by decide), if_neg (by decide), if_neg (by decide),
          if_neg (by decide), if_neg (by decide)]
        rw [hback, scanInt_intChars i rest hrest]
        rfl
      · obtain ⟨h1, h2, h3, h4, h5, h6, hws, _, _, _, _⟩ := decDig_dispatch hdig
        rw [harg, scanVal_succ g (dropWs_cons hws _)]
        rw [if_neg h1, if_neg h2, if_neg h3, if_neg h4, if_neg h5, if_neg h6]
        rw [hback, scanInt_intChars i rest hrest]
        rfl
  | .jstr s, 0, _, hf, _ => absurd hf (Nat.not_lt_zero _)
  | .jstr s, g + 1, rest, _, _ => by
      have harg : pyDumps (Json.jstr s) ++ rest
          = '"' :: (s.data.flatMap jsonEsc ++ ('"' :: rest)) := by
        show strChars s ++ rest = _
        simp [strChars]
      rw [harg, scanVal_succ g (dropWs_cons (by decide) _)]
      rw [if_neg (by decide), if_neg (by decide), if_neg (by decide), if_pos rfl]
      rw [scanStr_body]
      rfl
  | .jarr [], 0, _, hf, _ => absurd hf (Nat.not_lt_zero _)
  | .jarr [], g + 1, rest, _, _ => by
      rw [show pyDumps (Json.jarr []) ++ rest = '[' :: (']' :: rest) from rfl]
      rfl
  | .jarr (x :: xs), 0, _, hf, _ => absurd hf (Nat.not_lt_zero _)
  | .jarr (x :: xs), g + 1, rest, hf, _ => by
      have hx : (pyDumps x).length < g := by
        have h2 := hf
        simp [pyDumps] at h2
        omega
      have ht : (dumpTail xs).length < g := by
        have h2 := hf
        simp [pyDumps] at h2
        omega
      obtain ⟨c0, t0, hct, hws0, hrb0, _⟩ := pyDumps_head x
      have hvx := rtVal x g (dumpTail xs ++ ']' :: rest) hx (notDigHead_dumpTail xs rest)
      have hax := rtATail xs g rest ht
      have harg : pyDumps (Json.jarr (x :: xs)) ++ rest
          = '[' :: (pyDumps x ++ (dumpTail xs ++ ']' :: rest)) := by simp [pyDumps]
      rw [harg, scanVal_succ g (dropWs_cons (by decide) _)]
      rw [if_neg (by decide), if_neg (by decide), if_neg (by decide), if_neg (by decide),
        if_pos rfl]
      rw [dropWs_dumps x _]
      have hctc : pyDumps x ++ (dumpTail xs ++ ']' :: rest)
          = c0 :: (t0 ++ (dumpTail xs ++ ']' :: rest)) := by
        rw [hct]
        rfl
      rw [hctc]
      show (if c0 = ']' then some (Json.jarr [], t0 ++ (dumpTail xs ++ ']' :: rest))
        else
          match scanVal g (c0 :: (t0 ++ (dumpTail xs ++ ']' :: rest))) with
          | none => none
          | some (v, r2) =>
            match scanATail g r2 with
            | none => none
            | some (vs, r3) => some (Json.jarr (v :: vs), r3)) = some (Json.jarr (x :: xs), rest)
      rw [if_neg hrb0, ← hctc, hvx]
      show (match scanATail g (dumpTail xs ++ ']' :: rest) with
        | none => none
        | some (vs, r3) => some (Json.jarr (x :: vs), r3)) = some (Json.jarr (x :: xs), rest)
      rw [hax]
  | .jobj [], 0, _, hf, _ => absurd hf (Nat.not_lt_zero _)
  | .jobj [], g + 1, rest, _, _ => by
      rw [show pyDumps (Json.jobj []) ++ rest = '{' :: ('}' :: rest) from rfl]
      rfl
  | .jobj ((k, v) :: ms), 0, _, hf, _ => absurd hf (Nat.not_lt_zero _)
  | .jobj ((k, v) :: ms), g + 1, rest, hf, _ => by
      have hm : (dumpMember (k, v)).length < g := by
        have h2 := hf
        simp [pyDumps] at h2
        omega
      have hms : (dumpMTail ms).length < g := by
        have h2 := hf
        simp [pyDumps] at h2
        omega
      have hmem := rtMember k v g (dumpMTail ms ++ '}' :: rest) hm (notDigHead_dumpMTail ms rest)
      have hot := rtOTail ms g rest hms
      have harg : pyDumps (Json.jobj ((k, v) :: ms)) ++ rest
          = '{' :: (dumpMember (k, v) ++ (dumpMTail ms ++ '}' :: rest)) := by simp [pyDumps]
      rw [harg, scanVal_succ g (dropWs_cons (by decide) _)]
      rw [if_neg (by decide), if_neg (by decide), if_neg (by decide), if_neg (by decide),
        if_neg (by decide), if_pos rfl]
      have hhd : dumpMember (k, v) ++ (dumpMTail ms ++ '}' :: rest)
          = '"' :: (k.data.flatMap jsonEsc
              ++ ('"' :: (':' :: (' ' :: (pyDumps v ++ (dumpMTail ms ++ '}' :: rest)))))) := by
        simp [dumpMember, strChars]
      rw [hhd, dropWs_cons (by decide)]
      show (if ('"' : Char) = '}' then
          some (Json.jobj [], k.data.flatMap jsonEsc
            ++ ('"' :: (':' :: (' ' :: (pyDumps v ++ (dumpMTail ms ++ '}' :: rest))))))
        else
          match scanMember g ('"' :: (k.data.flatMap jsonEsc
              ++ ('"' :: (':' :: (' ' :: (pyDumps v ++ (dumpMTail ms ++ '}' :: rest))))))) with
          | none => none
          | some (k1, v1, r2) =>
            match scanOTail g r2 with
            | none => none
            | some (ms1, r3) => some (Json.jobj ((k1, v1) :: ms1), r3))
        = some (Json.jobj ((k, v) :: ms), rest)
      rw [if_neg (by decide), ← hhd, hmem]
      show (match scanOTail g (dumpMTail ms ++ '}' :: rest) with
        | none => none
        | some (ms1, r3) => some (Json.jobj ((k, v) :: ms1), r3))
        = some (Json.jobj ((k, v) :: ms), rest)
      rw [hot]
termination_by j _ _ _ _ => sizeOf j

theorem rtATail : ∀ (xs : List Json) (fl : Nat) (rest : List Char),
    (dumpTail xs).length < fl →
    scanATail fl (dumpTail xs ++ ']' :: rest) = some (xs, rest)
  | [], 0, _, hf => absurd hf (Nat.not_lt_zero _)
  | [], g + 1, rest, _ => by
      rw [show dumpTail [] ++ ']' :: rest = ']' :: rest from rfl]
      rfl
  | x :: xs, 0, _, hf => absurd hf (Nat.not_lt_zero _)
  | x :: xs, g + 1, rest, hf => by
      have hx : (pyDumps x).length < g := by
        have h2 := hf
        simp [dumpTail] at h2
        omega
      have ht : (dumpTail xs).length < g := by
        have h2 := hf
        simp [dumpTail] at h2
        omega
      have hvx := rtVal x g (dumpTail xs ++ ']' :: rest) hx (notDigHead_dumpTail xs rest)
      have hax := rtATail xs g rest ht
      have harg : dumpTail (x :: xs) ++ ']' :: rest
          = ',' :: (' ' :: (pyDumps x ++ (dumpTail xs ++ ']' :: rest))) := by
        simp [dumpTail]
      rw [harg, scanATail_succ g (dropWs_cons (by decide) _)]
      rw [if_neg (by decide), if_pos rfl]
      rw [scanVal_ws g, hvx]
      show (match scanATail g (dumpTail xs ++ ']' :: rest) with
        | none => none
        | some (vs, r2) => some (x :: vs, r2)) = some (x :: xs, rest)
      rw [hax]
termination_by xs _ _ _ => sizeOf xs

theorem rtMember : ∀ (k : String) (v : Json) (fl : Nat) (rest : List Char),
    (dumpMember (k, v)).length < fl → notDigHead rest = true →
    scanMember fl (dumpMember (k, v) ++ rest) = some (k, v, rest)
  | _, _, 0, _, hf, _ => absurd hf (Nat.not_lt_zero _)
  | k, v, g + 1, rest, hf, hrest => by
      have hvlen : (pyDumps v).length < g := by
        have h2 := hf
        simp [dumpMember, strChars] at h2
        omega
      have hv := rtVal v g rest hvlen hrest
      have harg : dumpMember (k, v) ++ rest
          = '"' :: (k.data.flatMap jsonEsc ++ ('"' :: (':' :: (' ' :: (pyDumps v ++ rest))))) := by
        simp [dumpMember, strChars]
      rw [harg, scanMember_succ g (dropWs_cons (by decide) _), if_pos rfl]
      rw [scanStr_body]
      show (match scanVal g (' ' :: (pyDumps v ++ rest)) with
        | none => none
        | some (v1, r3) => some (String.mk k.data, v1, r3)) = some (k, v, rest)
      rw [scanVal_ws g, hv]
termination_by _ v _ _ _ _ => sizeOf v + 1

theorem rtOTail : ∀ (ms : List (String × Json)) (fl : Nat) (rest : List Char),
    (dumpMTail ms).length < fl →
    scanOTail fl (dumpMTail ms ++ '}' :: rest) = some (ms, rest)
  | [], 0, _, hf => absurd hf (Nat.not_lt_zero _)
  | [], g + 1, rest, _ => by
      rw [show dumpMTail [] ++ '}' :: rest = '}' :: rest from rfl]
      rfl
  | (k, v) :: ms, 0, _, hf => absurd hf (Nat.not_lt_zero _)
  | (k, v) :: ms, g + 1, rest, hf => by
      have hm : (dumpMember (k, v)).length < g := by
        have h2 := hf
        simp [dumpMTail] at h2
        omega
      have hms : (dumpMTail ms).length < g := by
        have h2 := hf
        simp [dumpMTail] at h2
        omega
      have hmem := rtMember k v g (dumpMTail ms ++ '}' :: rest) hm (notDigHead_dumpMTail ms rest)
      have hot := rtOTail ms g rest hms
      have harg : dumpMTail ((k, v) :: ms) ++ '}' :: rest
          = ',' :: (' ' :: (dumpMember (k, v) ++ (dumpMTail ms ++ '}' :: rest))) := by
        simp [dumpMTail]
      rw [harg, scanOTail_succ g (dropWs_cons (by decide) _)]
      rw [if_neg (by decide), if_pos rfl]
      rw [scanMember_ws g, hmem]
      show (match scanOTail g (dumpMTail ms ++ '}' :: rest) with
        | none => none
        | some (ms1, r2) => some ((k, v) :: ms1, r2)) = some ((k, v) :: ms, rest)
      rw [hot]
termination_by ms _ _ _ => sizeOf ms
end

/-- `json.loads` inverts `json.dumps`. -/
theorem pyLoads_pyDumps (j : Json) : pyLoads (pyDumps j) = some j := by
  have h := rtVal j ((pyDumps j).length + 1) [] (by omega) rfl
  rw [List.append_nil] at h
  simp [pyLoads, h, dropWs]

/-! ## UTF-8 round-trip -/

theorem char_toNat_lt (c : Char) : c.toNat < 1114112 := by
  have h := c.valid
  rcases h with h | h <;> (unfold Char.toNat; omega)

theorem utf8Dec_cons (b : Nat) (r : List Nat) :
    utf8Dec (b :: r) =
      (if b < 128 then (utf8Dec r).map (fun t => Char.ofNat b :: t)
       else if b < 192 then none
       else if b < 224 then utf8Dec2 b r
       else if b < 240 then utf8Dec3 b r
       else if b < 248 then utf8Dec4 b r
       else none) := rfl

theorem utf8Dec2_cons (b b1 : Nat) (r1 : List Nat) :
    utf8Dec2 b (b1 :: r1) =
      (if 128 ≤ b1 ∧ b1 < 192 then
        (utf8Dec r1).map (fun t => Char.ofNat ((b - 192) * 64 + (b1 - 128)) :: t)
      else none) := rfl

theorem utf8Dec3_cons (b b1 b2 : Nat) (r1 : List Nat) :
    utf8Dec3 b (b1 :: b2 :: r1) =
      (if (128 ≤ b1 ∧ b1 < 192) ∧ (128 ≤ b2 ∧ b2 < 192) then
        (utf8Dec r1).map
          (fun t => Char.ofNat (((b - 224) * 64 + (b1 - 128)) * 64 + (b2 - 128)) :: t)
      else none) := rfl

theorem utf8Dec4_cons (b b1 b2 b3 : Nat) (r1 : List Nat) :
    utf8Dec4 b (b1 :: b2 :: b3 :: r1) =
      (if ((128 ≤ b1 ∧ b1 < 192) ∧ (128 ≤ b2 ∧ b2 < 192)) ∧ (128 ≤ b3 ∧ b3 < 192) then
        (utf8Dec r1).map
          (fun t =>
            Char.ofNat ((((b - 240) * 64 + (b1 - 128)) * 64 + (b2 - 128)) * 64 + (b3 - 128)) :: t)
      else none) := rfl

theorem utf8Dec_char (c : Char) (X : List Nat) :
    utf8Dec (utf8Char c ++ X) = (utf8Dec X).map (fun l => c :: l) := by
  have hlt : c.toNat < 1114112 := char_toNat_lt c
  by_cases h1 : c.toNat < 128
  · have he : utf8Char c = [c.toNat] := by simp [utf8Char, h1]
    rw [he, List.singleton_append, utf8Dec_cons, if_pos h1, Char.ofNat_toNat]
  · by_cases h2 : c.toNat < 2048
    · have he : utf8Char c = [192 + c.toNat / 64, 128 + c.toNat % 64] := by
        simp [utf8Char, h1, h2]
      rw [he, List.cons_append, List.cons_append, List.nil_append, utf8Dec_cons]
      rw [if_neg (by omega), if_neg (by omega), if_pos (by omega), utf8Dec2_cons,
        if_pos (by omega),
        show (192 + c.toNat / 64 - 192) * 64 + (128 + c.toNat % 64 - 128) = c.toNat by omega,
        Char.ofNat_toNat]
    · by_cases h3 : c.toNat < 65536
      · have he : utf8Char c
            = [224 + c.toNat / 4096, 128 + c.toNat / 64 % 64, 128 + c.toNat % 64] := by
          simp [utf8Char, h1, h2, h3]
        rw [he, List.cons_append, List.cons_append, List.cons_append, List.nil_append,
          utf8Dec_cons]
        rw [if_neg (by omega), if_neg (by omega), if_neg (by omega), if_pos (by omega),
          utf8Dec3_cons, if_pos (by omega),
          show ((224 + c.toNat / 4096 - 224) * 64 + (128 + c.toNat / 64 % 64 - 128)) * 64
            + (128 + c.toNat % 64 - 128) = c.toNat by omega, Char.ofNat_toNat]
      · have he : utf8Char c
            = [240 + c.toNat / 262144, 128 + c.toNat / 4096 % 64,
               128 + c.toNat / 64 % 64, 128 + c.toNat % 64] := by
          simp [utf8Char, h1, h2, h3]
        rw [he, List.cons_append, List.cons_append, List.cons_append, List.cons_append,
          List.nil_append, utf8Dec_cons]
        rw [if_neg (by omega), if_neg (by omega), if_neg (by omega), if_neg (by omega),
          if_pos (by omega), utf8Dec4_cons, if_pos (by omega),
          show (((240 + c.toNat / 262144 - 240) * 64 + (128 + c.toNat / 4096 % 64 - 128)) * 64
            + (128 + c.toNat / 64 % 64 - 128)) * 64 + (128 + c.toNat % 64 - 128) = c.toNat by
            omega, Char.ofNat_toNat]

theorem utf8Dec_utf8Enc (cs : List Char) : utf8Dec (utf8Enc cs) = some cs := by
  induction cs with
  | nil => rfl
  | cons c t ih =>
      have h : utf8Enc (c :: t) = utf8Char c ++ utf8Enc t := by simp [utf8Enc]
      rw [h, utf8Dec_char, ih]
      rfl

theorem utf8Enc_bytes (cs : List Char) : ∀ b ∈ utf8Enc cs, b < 256 := by
  intro b hb
  rw [utf8Enc, List.mem_flatMap] at hb
  obtain ⟨c, _, hbc⟩ := hb
  have hlt := char_toNat_lt c
  by_cases h1 : c.toNat < 128
  · rw [show utf8Char c = [c.toNat] from by simp [utf8Char, h1]] at hbc
    simp at hbc
    omega
  · by_cases h2 : c.toNat < 2048
    · rw [show utf8Char c = [192 + c.toNat / 64, 128 + c.toNat % 64] from by
        simp [utf8Char, h1, h2]] at hbc
      simp at hbc
      rcases hbc with h | h <;> omega
    · by_cases h3 : c.toNat < 65536
      · rw [show utf8Char c
            = [224 + c.toNat / 4096, 128 + c.toNat / 64 % 64, 128 + c.toNat % 64] from by
          simp [utf8Char, h1, h2, h3]] at hbc
        simp at hbc
        rcases hbc with h | h | h <;> omega
      · rw [show utf8Char c
            = [240 + c.toNat / 262144, 128 + c.toNat / 4096 % 64,
               128 + c.toNat / 64 % 64, 128 + c.toNat % 64] from by
          simp [utf8Char, h1, h2, h3]] at hbc
        simp at hbc
        rcases hbc with h | h | h | h <;> omega

/-! ## Base64 round-trip -/

theorem b64Val_char (k : Nat) (h : k < 64) : b64Val (b64Char k) = some k := by
  have hall : ∀ m : Fin 64, b64Val (b64Char m.val) = some m.val := by decide
  exact hall ⟨k, h⟩

theorem b64Char_ne_pad (k : Nat) (h : k < 64) : b64Char k ≠ '=' := by
  have hall : ∀ m : Fin 64, b64Char m.val ≠ '=' := by decide
  exact hall ⟨k, h⟩

theorem b64Keep_char (k : Nat) (h : k < 64) : b64Keep (b64Char k) = true := by
  have hall : ∀ m : Fin 64, b64Keep (b64Char m.val) = true := by decide
  exact hall ⟨k, h⟩

theorem b64Groups_cons (c0 c1 c2 c3 : Char) (r : List Char) :
    b64Groups (c0 :: c1 :: c2 :: c3 :: r) =
      (match b64Val c0, b64Val c1 with
       | some v0, some v1 =>
         if c2 = '=' then
           if c3 = '=' ∧ r = [] then some [v0 * 4 + v1 / 16] else none
         else
           match b64Val c2 with
           | some v2 =>
             if c3 = '=' then
               if r = [] then some [v0 * 4 + v1 / 16, v1 % 16 * 16 + v2 / 4] else none
             else
               match b64Val c3 with
               | some v3 =>
                   (b64Groups r).map
                     (fun t =>
                       (v0 * 4 + v1 / 16) :: (v1 % 16 * 16 + v2 / 4) :: (v2 % 4 * 64 + v3) :: t)
               | none => none
           | none => none
       | _, _ => none) := rfl

theorem b64Groups_pad2 (c0 c1 : Char) (v0 v1 : Nat)
    (h0 : b64Val c0 = some v0) (h1 : b64Val c1 = some v1) :
    b64Groups [c0, c1, '=', '='] = some [v0 * 4 + v1 / 16] := by
  rw [show ([c0, c1, '=', '='] : List Char) = c0 :: c1 :: '=' :: '=' :: [] from rfl,
    b64Groups_cons, h0, h1]
  rfl

theorem b64Groups_pad1 (c0 c1 c2 : Char) (v0 v1 v2 : Nat)
    (h0 : b64Val c0 = some v0) (h1 : b64Val c1 = some v1) (h2 : b64Val c2 = some v2)
    (hne2 : c2 ≠ '=') :
    b64Groups [c0, c1, c2, '='] = some [v0 * 4 + v1 / 16, v1 % 16 * 16 + v2 / 4] := by
  rw [show ([c0, c1, c2, '='] : List Char) = c0 :: c1 :: c2 :: '=' :: [] from rfl,
    b64Groups_cons, h0, h1]
  show (if c2 = '=' then
          if ('=' : Char) = '=' ∧ ([] : List Char) = [] then some [v0 * 4 + v1 / 16] else none
        else
          match b64Val c2 with
          | some v2 =>
            if ('=' : Char) = '=' then
              if ([] : List Char) = [] then some [v0 * 4 + v1 / 16, v1 % 16 * 16 + v2 / 4]
              else none
            else
              match b64Val '=' with
              | some v3 =>
                  (b64Groups ([] : List Char)).map
                    (fun t =>
                      (v0 * 4 + v1 / 16) :: (v1 % 16 * 16 + v2 / 4) :: (v2 % 4 * 64 + v3) :: t)
              | none => none
          | none => none)
      = some [v0 * 4 + v1 / 16, v1 % 16 * 16 + v2 / 4]
  rw [if_neg hne2, h2]
  rfl

theorem b64Groups_full (c0 c1 c2 c3 : Char) (v0 v1 v2 v3 : Nat) (r : List Char)
    (h0 : b64Val c0 = some v0) (h1 : b64Val c1 = some v1) (h2 : b64Val c2 = some v2)
    (h3 : b64Val c3 = some v3) (hne2 : c2 ≠ '=') (hne3 : c3 ≠ '=') :
    b64Groups (c0 :: c1 :: c2 :: c3 :: r) =
      (b64Groups r).map
        (fun t => (v0 * 4 + v1 / 16) :: (v1 % 16 * 16 + v2 / 4) :: (v2 % 4 * 64 + v3) :: t) := by
  rw [b64Groups_cons, h0, h1]
  show (if c2 = '=' then
          if c3 = '=' ∧ r = [] then some [v0 * 4 + v1 / 16] else none
        else
          match b64Val c2 with
          | some v2 =>
            if c3 = '=' then
              if r = [] then some [v0 * 4 + v1 / 16, v1 % 16 * 16 + v2 / 4] else none
            else
              match b64Val c3 with
              | some v3 =>
                  (b64Groups r).map
                    (fun t =>
                      (v0 * 4 + v1 / 16) :: (v1 % 16 * 16 + v2 / 4) :: (v2 % 4 * 64 + v3) :: t)
              | none => none
          | none => none)
      = (b64Groups r).map
          (fun t => (v0 * 4 + v1 / 16) :: (v1 % 16 * 16 + v2 / 4) :: (v2 % 4 * 64 + v3) :: t)
  rw [if_neg hne2, h2]
  show (if c3 = '=' then
          if r = [] then some [v0 * 4 + v1 / 16, v1 % 16 * 16 + v2 / 4] else none
        else
          match b64Val c3 with
          | some v3 =>
              (b64Groups r).map
                (fun t =>
                  (v0 * 4 + v1 / 16) :: (v1 % 16 * 16 + v2 / 4) :: (v2 % 4 * 64 + v3) :: t)
          | none => none)
      = (b64Groups r).map
          (fun t => (v0 * 4 + v1 / 16) :: (v1 % 16 * 16 + v2 / 4) :: (v2 % 4 * 64 + v3) :: t)
  rw [if_neg hne3, h3]

theorem b64Groups_b64Encode : ∀ bs : List Nat, (∀ b ∈ bs, b < 256) →
    b64Groups (b64Encode bs) = some bs
  | [], _ => rfl
  | [b0], h => by
      have h0 : b0 < 256 := h b0 (by simp)
      rw [show b64Encode [b0] = [b64Char (b0 / 4), b64Char (b0 % 4 * 16), '=', '='] from rfl,
        b64Groups_pad2 _ _ _ _ (b64Val_char _ (by omega)) (b64Val_char _ (by omega)),
        show b0 / 4 * 4 + b0 % 4 * 16 / 16 = b0 from by omega]
  | [b0, b1], h => by
      have h0 : b0 < 256 := h b0 (by simp)
      have h1 : b1 < 256 := h b1 (by simp)
      rw [show b64Encode [b0, b1]
          = [b64Char (b0 / 4), b64Char (b0 % 4 * 16 + b1 / 16), b64Char (b1 % 16 * 4), '=']
          from rfl,
        b64Groups_pad1 _ _ _ _ _ _ (b64Val_char _ (by omega)) (b64Val_char _ (by omega))
          (b64Val_char _ (by omega)) (b64Char_ne_pad _ (by omega)),
        show b0 / 4 * 4 + (b0 % 4 * 16 + b1 / 16) / 16 = b0 from by omega,
        show (b0 % 4 * 16 + b1 / 16) % 16 * 16 + b1 % 16 * 4 / 4 = b1 from by omega]
  | b0 :: b1 :: b2 :: rest, h => by
      have h0 : b0 < 256 := h b0 (by simp)
      have h1 : b1 < 256 := h b1 (by simp)
      have h2 : b2 < 256 := h b2 (by simp)
      have ih := b64Groups_b64Encode rest (fun b hb => h b (by simp [hb]))
      rw [show b64Encode (b0 :: b1 :: b2 :: rest)
          = b64Char (b0 / 4) :: b64Char (b0 % 4 * 16 + b1 / 16)
            :: b64Char (b1 % 16 * 4 + b2 / 64) :: b64Char (b2 % 64) :: b64Encode rest
          from rfl,
        b64Groups_full _ _ _ _ _ _ _ _ _ (b64Val_char _ (by omega)) (b64Val_char _ (by omega))
          (b64Val_char _ (by omega)) (b64Val_char _ (by omega)) (b64Char_ne_pad _ (by omega))
          (b64Char_ne_pad _ (by omega)), ih]
      show some ((b0 / 4 * 4 + (b0 % 4 * 16 + b1 / 16) / 16)
          :: ((b0 % 4 * 16 + b1 / 16) % 16 * 16 + (b1 % 16 * 4 + b2 / 64) / 4)
          :: ((b1 % 16 * 4 + b2 / 64) % 4 * 64 + b2 % 64) :: rest)
        = some (b0 :: b1 :: b2 :: rest)
      rw [show b0 / 4 * 4 + (b0 % 4 * 16 + b1 / 16) / 16 = b0 from by omega,
        show (b0 % 4 * 16 + b1 / 16) % 16 * 16 + (b1 % 16 * 4 + b2 / 64) / 4 = b1 from by omega,
        show (b1 % 16 * 4 + b2 / 64) % 4 * 64 + b2 % 64 = b2 from by omega]

theorem b64Encode_kept : ∀ bs : List Nat, (∀ b ∈ bs, b < 256) →
    ∀ c ∈ b64Encode bs, b64Keep c = true
  | [], _ => by simp [b64Encode]
  | [b0], h => by
      have h0 : b0 < 256 := h b0 (by simp)
      intro c hc
      rw [show b64Encode [b0] = [b64Char (b0 / 4), b64Char (b0 % 4 * 16), '=', '=']
        from rfl] at hc
      simp at hc
      rcases hc with rfl | rfl | rfl
      · exact b64Keep_char _ (by omega)
      · exact b64Keep_char _ (by omega)
      · decide
  | [b0, b1], h => by
      have h0 : b0 < 256 := h b0 (by simp)
      have h1 : b1 < 256 := h b1 (by simp)
      intro c hc
      rw [show b64Encode [b0, b1]
          = [b64Char (b0 / 4), b64Char (b0 % 4 * 16 + b1 / 16), b64Char (b1 % 16 * 4), '=']
          from rfl] at hc
      simp at hc
      rcases hc with rfl | rfl | rfl | rfl
      · exact b64Keep_char _ (by omega)
      · exact b64Keep_char _ (by omega)
      · exact b64Keep_char _ (by omega)
      · decide
  | b0 :: b1 :: b2 :: rest, h => by
      have h0 : b0 < 256 := h b0 (by simp)
      have h1 : b1 < 256 := h b1 (by simp)
      have h2 : b2 < 256 := h b2 (by simp)
      have ih := b64Encode_kept rest (fun b hb => h b (by simp [hb]))
      intro c hc
      rw [show b64Encode (b0 :: b1 :: b2 :: rest)
          = b64Char (b0 / 4) :: b64Char (b0 % 4 * 16 + b1 / 16)
            :: b64Char (b1 % 16 * 4 + b2 / 64) :: b64Char (b2 % 64) :: b64Encode rest
          from rfl] at hc
      simp at hc
      rcases hc with rfl | rfl | rfl | rfl | hmem
      · exact b64Keep_char _ (by omega)
      · exact b64Keep_char _ (by omega)
      · exact b64Keep_char _ (by omega)
      · exact b64Keep_char _ (by omega)
      · exact ih c hmem

theorem b64Decode_b64Encode (bs : List Nat) (h : ∀ b ∈ bs, b < 256) :
    b64Decode (b64Encode bs) = some bs := by
  rw [b64Decode, List.filter_eq_self.mpr (b64Encode_kept bs h), b64Groups_b64Encode bs h]

/-! ## The payload codec round-trip -/

/-- Decoding an encoded info/data payload recovers the serialised value. -/
theorem decPayload_encPayload (j : Json) : decPayload (encPayload j) = some j := by
  show (b64Decode (b64Encode (utf8Enc (pyDumps j)))).bind _ = some j
  rw [b64Decode_b64Encode _ (utf8Enc_bytes _)]
  show (utf8Dec (utf8Enc (pyDumps j))).bind _ = some j
  rw [utf8Dec_utf8Enc]
  show pyLoads (pyDumps j) = some j
  exact pyLoads_pyDumps j

/-! ## Dictionary and payload helper lemmas -/

theorem dget_dset_self (k : String) (v : Json) : ∀ l, dget k (dset k v l) = some v := by
  intro l
  induction l with
  | nil => simp [dget, dset]
  | cons p t ih =>
      obtain ⟨k1, v1⟩ := p
      by_cases hk : k1 = k
      · simp [dget, dset, hk]
      · simp [dget, dset, hk, ih]

theorem pyDumps_ne_nil (j : Json) : pyDumps j ≠ [] := by
  obtain ⟨c, t, hct, _, _, _⟩ := pyDumps_head j
  simp [hct]

theorem utf8Char_ne_nil (c : Char) : utf8Char c ≠ [] := by
  by_cases h1 : c.toNat < 128
  · simp [utf8Char, h1]
  · by_cases h2 : c.toNat < 2048
    · simp [utf8Char, h1, h2]
    · by_cases h3 : c.toNat < 65536 <;> simp [utf8Char, h1, h2, h3]

theorem utf8Enc_ne_nil {cs : List Char} (h : cs ≠ []) : utf8Enc cs ≠ [] := by
  match cs, h with
  | c :: t, _ =>
      show utf8Char c ++ utf8Enc t ≠ []
      simp [utf8Char_ne_nil c]

theorem b64Encode_ne_nil : ∀ {bs : List Nat}, bs ≠ [] → b64Encode bs ≠ []
  | [], h => absurd rfl h
  | [b0], _ => by simp [b64Encode]
  | [b0, b1], _ => by simp [b64Encode]
  | b0 :: b1 :: b2 :: r, _ => by simp [b64Encode]

theorem encPayload_truthy (j : Json) : truthy (some (encPayload j)) = true := by
  have h : (encPayload j).data ≠ [] :=
    b64Encode_ne_nil (utf8Enc_ne_nil (pyDumps_ne_nil j))
  simp [truthy]
  intro he
  rw [he] at h
  exact h rfl

/-! ## C1: the per-row info payload round-trips -/

/-- **C1.** Building a row through the 1.6 codec's `menu_item` with
`meta_data = m` merged with `{text: t, id: i}` places
`base64(json.dumps(merged))` under the row's `info` field, and decoding that
payload along `parse_meta`'s row path (`json.loads ∘ urlsafe_b64decode`,
here `decPayload`) returns a structured value deep-equal to the merged
metadata — the original dictionary updated with the `text` and `id` keys. -/
theorem c1_info_payload_roundtrip :
    ∀ (m : List (String × Json)) (t : String) (i : List String)
      (icon searchableText : Option String) (nonselectable : Option Bool),
      List.lookup kInfo
          (menuItemFields16 icon searchableText nonselectable (Json.jobj (rowMeta m t i)))
        = some (encPayload (Json.jobj (rowMeta m t i)))
      ∧ decPayload (encPayload (Json.jobj (rowMeta m t i)))
        = some (Json.jobj (rowMeta m t i)) := by
  intro m t i icon searchableText nonselectable
  constructor
  · rcases icon with _ | ic <;> rcases searchableText with _ | stx <;>
      rcases nonselectable with _ | ns <;>
      simp [menuItemFields16, List.lookup, kInfo, kIcon, kMetaField, kNonselectable]
  · exact decPayload_encPayload _

/-! ## C6: selected_id and user_input are mutually exclusive -/

/-- **C6.** For every MetaStore state, `selected_id` and `user_input` are
never both non-null: a present `"id"` key makes `_meta` non-empty, which
silences `user_input`, and a non-null `user_input` means `_meta` is empty,
so `_meta.get("id")` is `None`. -/
theorem c6_selected_id_user_input_exclusive :
    ∀ st : MetaSt,
      ((st.selectedId).isSome = true → st.userInput = none)
      ∧ ((st.userInput).isSome = true → st.selectedId = none) := by
  intro st
  constructor
  · intro h
    match hm : st.meta with
    | [] =>
        rw [MetaSt.selectedId, hm] at h
        simp [dget] at h
    | p :: t =>
        rw [MetaSt.userInput, hm]
        simp
  · intro h
    rw [MetaSt.userInput] at h
    by_cases hm : st.meta.isEmpty
    · rw [MetaSt.selectedId, List.isEmpty_iff.mp hm]
      rfl
    · rw [if_neg hm] at h
      simp at h

/-- Witness for C6 at a store whose metadata holds an `"id"` key. -/
theorem c6_witness :
    MetaSt.userInput ⟨[(kId, Json.jnull)], emptyStr, none⟩ = none :=
  (c6_selected_id_user_input_exclusive ⟨[(kId, Json.jnull)], emptyStr, none⟩).1 (by decide)

/-! ## C10: `set_state` with a null state is a no-op -/

/-- **C10.** `set_state(item_id, None)` leaves the metadata mapping exactly
unchanged (the guard `if state is not None` skips the write), so a stored
non-null state can never be cleared back to null through `set_state`:
after any `set_state` the key is still present. -/
theorem c10_set_state_none_noop :
    (∀ (st : MetaSt) (itemId : List String), setStateOf st itemId none = st)
    ∧ (∀ (st : MetaSt) (itemId : List String) (s : Option Json) (v : Json),
        getStateOf st itemId = some v →
        (getStateOf (setStateOf st itemId s) itemId).isSome = true) := by
  constructor
  · intro st itemId
    rfl
  · intro st itemId s v h
    match s with
    | none => rw [show setStateOf st itemId none = st from rfl, h]; rfl
    | some x =>
        show (dget (dotJoin itemId) (dset (dotJoin itemId) x st.meta)).isSome = true
        rw [dget_dset_self]
        rfl

/-- Witness for C10: a stored state survives any later `set_state`. -/
theorem c10_witness :
    (getStateOf
        (setStateOf ⟨[(segX, Json.jnull)], emptyStr, none⟩ [segX] none)
        [segX]).isSome = true :=
  c10_set_state_none_noop.2 ⟨[(segX, Json.jnull)], emptyStr, none⟩ [segX] none Json.jnull rfl

/-! ## C3: the decoder's return-value mapping (code bug) -/

/-- **C3** (divergence witness).  `decode_script_input` compares the
environment's `ROFI_RETV` string with the integers `0`, `1`, `2`; in Python
that comparison is always `False`, so the string `"0"` falls through to the
catch-all branch and yields `CUSTOM_KEY_-9` instead of `INITIAL_CALL`. -/
theorem c3_decoder_zero_misroutes :
    decoderAction (some retvInitial) = some (customKeyPre ++ String.mk (intChars (-9)))
    ∧ decoderAction (some retvInitial) ≠ some actInitialDec := by
  constructor
  · rfl
  · decide

/-! ## C7: `last_active_menu` stamping (corrected) -/

/-- **C7** (counterexample).  After `handle_render` on a menu and a
constructor-shaped MetaStore, nothing records `last_active_menu`: the store
is returned unchanged, its `session` is `None` (the class never defines
one), and its metadata holds no `last_active_menu` key — contradicting the
claim that `handle_render` always stamps `last_active_menu = m.id`. -/
theorem c7_counterexample :
    (menuHandleRender (MMenu.mk [segRoot] segX false []) ⟨[], emptyStr, none⟩).2
      = (⟨[], emptyStr, none⟩ : MetaSt)
    ∧ (⟨[], emptyStr, none⟩ : MetaSt).session = none
    ∧ dget kLastActive (⟨[], emptyStr, none⟩ : MetaSt).meta = none := by
  refine ⟨rfl, rfl, rfl⟩

/-- **C7** (amended).  `post_render` stamps `last_active_menu` only into a
pre-existing truthy `session` attribute; the repository's `MetaStore`
constructor never creates one, so every store it produces has no session
and `handle_render` leaves the MetaStore completely unchanged — the next
invocation's free-text routing sees no recorded last-active menu. -/
theorem c7_amended_no_stamp :
    (∀ (raw : String) (env : RofiEnv) (st : MetaSt),
      initMetaStore16 raw env = some st → st.session = none)
    ∧ (∀ (m : MMenu) (st : MetaSt), st.session = none → (menuHandleRender m st).2 = st) := by
  constructor
  · intro raw env st h
    unfold initMetaStore16 at h
    split at h
    · cases h
      rfl
    · cases h
  · intro m st h
    show menuPostRender m st = st
    rw [menuPostRender, h]

/-- Witness for C7's amended claim at a concrete empty environment and
menu. -/
theorem c7_witness :
    (⟨[], emptyStr, none⟩ : MetaSt).session = none
    ∧ (menuHandleRender (MMenu.mk [segRoot] segX false []) ⟨[], emptyStr, none⟩).2
        = (⟨[], emptyStr, none⟩ : MetaSt) :=
  ⟨c7_amended_no_stamp.1 emptyStr ⟨none, none, none⟩ ⟨[], emptyStr, none⟩ rfl,
   c7_amended_no_stamp.2 (MMenu.mk [segRoot] segX false []) ⟨[], emptyStr, none⟩ rfl⟩

/-! ## C8: the `loaded` guard never trips (code bug) -/

/-- **C8** (divergence witness).  `build` indeed does not load (the ghost
counter stays 0), but the source never sets `loaded = True`, so the
`if not self.loaded` guards in `pre_render`/`pre_select` pass every time:
two `handle_render` calls load twice, and a following `handle_select`
loads a third time — the claim's "at most once per invocation" fails. -/
theorem c8_load_guard_never_set :
    (bBuild ⟨[], some segX, none, false, 0⟩ [segRoot] seg0).loadCount = 0
    ∧ ((bHandleRender ⟨[], emptyStr, none⟩
          ((bHandleRender ⟨[], emptyStr, none⟩
            ⟨[segX], some segX, none, false, 0⟩).2)).2).loadCount = 2
    ∧ ((bHandleRender ⟨[], emptyStr, none⟩ ⟨[segX], some segX, none, false, 0⟩).2).loaded
        = false
    ∧ ((bHandleSelect ⟨[], emptyStr, none⟩
          ((bHandleRender ⟨[], emptyStr, none⟩
            ⟨[segX], some segX, none, false, 0⟩).2)).2.1).loadCount = 2 := by
  refine ⟨rfl, rfl, rfl, rfl⟩

/-! ## C2: what the two decoders return (corrected) -/

/-- **C2** (counterexample).  With a selected-entry action and well-formed
encoded dictionaries in both metadata variables, the ≥1.7.4 `parse_meta`
returns the empty mapping — not the union of the two dictionaries the
claim requires (here `{text: 1, id: 2}`). -/
theorem c2_counterexample :
    parseMeta174
        ⟨some retvSelected,
         some (encPayload (Json.jobj [(kText, Json.jnum 1)])),
         some (encPayload (Json.jobj [(kId, Json.jnum 2)]))⟩
      = some (Json.jobj [])
    ∧ Json.jobj []
        ≠ Json.jobj (dupd [(kText, Json.jnum 1)] [(kId, Json.jnum 2)]) := by
  constructor
  · have htd : truthy (some (encPayload (Json.jobj [(kText, Json.jnum 1)]))) = true :=
      encPayload_truthy _
    have hti : truthy (some (encPayload (Json.jobj [(kId, Json.jnum 2)]))) = true :=
      encPayload_truthy _
    have hdd := decPayload_encPayload (Json.jobj [(kText, Json.jnum 1)])
    have hdi := decPayload_encPayload (Json.jobj [(kId, Json.jnum 2)])
    unfold parseMeta174
    simp [htd, hti, hdd, hdi, retvSelected, retvInitial, actionName174]
  · simp [dupd, dset, kText, kId]

/-- **C2** (amended).  The 1.6 `parse_meta` does return the union: the
decoded prior blob updated in place by the decoded row metadata (row keys
overlay blob keys) whenever the action is the selected-entry code.  The
≥1.7.4 variant computes its metadata object but ends with `return {}`:
whenever it returns at all, the result is the empty mapping. -/
theorem c2_parse_meta_returns :
    (∀ (dm rm : List (String × Json)),
      parseMeta16
          ⟨some retvSelected, some (encPayload (Json.jobj dm)),
           some (encPayload (Json.jobj rm))⟩
        = some (Json.jobj (dupd dm rm)))
    ∧ (∀ env : RofiEnv,
        parseMeta174 env = none ∨ parseMeta174 env = some (Json.jobj [])) := by
  constructor
  · intro dm rm
    have htd := encPayload_truthy (Json.jobj dm)
    have hti := encPayload_truthy (Json.jobj rm)
    have hdd := decPayload_encPayload (Json.jobj dm)
    have hdr := decPayload_encPayload (Json.jobj rm)
    unfold parseMeta16
    simp [htd, hti, hdd, hdr]
  · intro env
    unfold parseMeta174
    repeat' split
    all_goals first
      | exact Or.inl rfl
      | exact Or.inr rfl

/-! ## C9: decode errors propagate — when the variable is consumed
(corrected) -/

/-- **C9** (counterexample).  A metadata variable can hold malformed base64
and still not fail the decode: with `ROFI_RETV = "0"` the 1.6 `parse_meta`
never reads `ROFI_INFO`, so an undecodable value there (the one-character
string `"0"` raises `binascii.Error` in Python, `decPayload` is `none`)
coexists with a successful empty result. -/
theorem c9_counterexample :
    decPayload retvInitial = none
    ∧ truthy (some retvInitial) = true
    ∧ parseMeta16 ⟨some retvInitial, none, some retvInitial⟩ = some (Json.jobj []) := by
  refine ⟨rfl, by decide, rfl⟩

/-- **C9** (amended).  Whenever a metadata variable the decode path actually
consumes is malformed, the error propagates as a failure, never a
successful result: for the 1.6 codec that is a truthy `ROFI_DATA`, or a
truthy `ROFI_INFO` under a selected-entry action; for the ≥1.7.4 codec a
truthy `ROFI_DATA` off the initial call, or any truthy `ROFI_INFO`.  The
`MetaStore` constructor then fails the same way: the invocation produces a
raised exception, not output. -/
theorem c9_decode_errors_propagate :
    (∀ env : RofiEnv, truthy env.data = true →
      decPayload (env.data.getD emptyStr) = none → parseMeta16 env = none)
    ∧ (∀ env : RofiEnv, env.retv = some retvSelected → truthy env.info = true →
        decPayload (env.info.getD emptyStr) = none → parseMeta16 env = none)
    ∧ (∀ env : RofiEnv, env.retv ≠ some retvInitial → truthy env.data = true →
        decPayload (env.data.getD emptyStr) = none → parseMeta174 env = none)
    ∧ (∀ env : RofiEnv, truthy env.info = true →
        decPayload (env.info.getD emptyStr) = none → parseMeta174 env = none)
    ∧ (∀ (raw : String) (env : RofiEnv),
        parseMeta16 env = none → initMetaStore16 raw env = none) := by
  refine ⟨?_, ?_, ?_, ?_, ?_⟩
  · intro env ht hd
    unfold parseMeta16
    rw [if_pos (by simp [ht]), hd]
  · intro env hr ht hd
    unfold parseMeta16
    split
    · rfl
    · rw [if_pos ⟨hr, by simp [ht]⟩, hd]
  · intro env hr ht hd
    unfold parseMeta174
    rw [if_pos ⟨hr, by simp [ht]⟩, hd]
  · intro env ht hd
    unfold parseMeta174
    repeat' split
    all_goals first
      | rfl
      | (simp [ht, hd]; done)
      | (rename_i heq2
         rw [hd] at heq2
         exact Option.noConfusion heq2)
  · intro raw env h
    unfold initMetaStore16
    rw [h]

/-- Witness for C9's amended claim: a malformed, consumed `ROFI_DATA`
fails both decoders, and the MetaStore constructor propagates it. -/
theorem c9_witness :
    parseMeta16 ⟨none, some retvInitial, none⟩ = none
    ∧ parseMeta174 ⟨none, some retvInitial, none⟩ = none
    ∧ initMetaStore16 emptyStr ⟨none, some retvInitial, none⟩ = none := by
  have h1 := c9_decode_errors_propagate.1 ⟨none, some retvInitial, none⟩ (by decide) rfl
  have h3 := (c9_decode_errors_propagate.2.2.1) ⟨none, some retvInitial, none⟩
    (by decide) (by decide) rfl
  exact ⟨h1, h3, c9_decode_errors_propagate.2.2.2.2 emptyStr _ h1⟩

/-! ## Selection-loop equations (definitional) -/

theorem selLoop_nil (parent : MMenu) (sidOpt : Option (List String)) (st : MetaSt) :
    selLoop parent sidOpt st []
      = some (⟨.output, some (menuHandleRender parent st).1⟩,
          (menuHandleRender parent st).2) := rfl

theorem selLoop_cons (parent : MMenu) (sid : List String) (st : MetaSt) (it : MItem)
    (rest : List MItem) :
    selLoop parent (some sid) st (it :: rest) =
      (if it.idOf = sid.take it.idOf.length then
        match itemHandleSelect it parent st with
        | none => none
        | some (op, st1) =>
          if op.code = .refreshMenu then
            some (⟨.output, some (menuHandleRender parent st1).1⟩,
              (menuHandleRender parent st1).2)
          else some (op, st1)
      else selLoop parent (some sid) st rest) := rfl

theorem menuPropagateSelect_mk (mid : List String) (prompt : String) (allow : Bool)
    (items : List MItem) (st : MetaSt) :
    menuPropagateSelect (.mk mid prompt allow items) st
      = selLoop (.mk mid prompt allow items) st.selectedIdStrs st items := rfl

theorem itemHandleSelect_nested (iid : List String) (text icon search : Option String)
    (nonsel act urg : Bool) (sub parent : MMenu) (st : MetaSt) :
    itemHandleSelect (MItem.mk iid text icon search nonsel act urg (.nested sub)) parent st
      = (if st.selectedIdStrs = some iid then
           some (nestedRewrite ⟨.output, some (menuHandleRender sub st).1⟩
             (setStateOf (menuHandleRender sub st).2 iid (getStateOf st iid)) sub parent)
         else
           match menuPropagateSelect sub st with
           | none => none
           | some (op, st1) => some (nestedRewrite op st1 sub parent)) := rfl

/-- The loop of `propagate_select`, characterised by `List.find?` over the
id prefix relation: the first prefix-matching item is delegated to, a
`REFRESH_MENU` outcome is replaced by an OUTPUT of the parent's render,
anything else passes through, and no match falls back to rendering. -/
theorem selLoop_find_characterization (parent : MMenu) (sid : List String) (st : MetaSt) :
    ∀ items : List MItem,
      (items.find? (fun it => it.idOf.isPrefixOf sid) = none →
        selLoop parent (some sid) st items
          = some (⟨.output, some (menuHandleRender parent st).1⟩,
              (menuHandleRender parent st).2))
      ∧ (∀ it op st1,
          items.find? (fun it => it.idOf.isPrefixOf sid) = some it →
          itemHandleSelect it parent st = some (op, st1) →
          (op.code = .refreshMenu →
            selLoop parent (some sid) st items
              = some (⟨.output, some (menuHandleRender parent st1).1⟩,
                  (menuHandleRender parent st1).2))
          ∧ (op.code ≠ .refreshMenu →
            selLoop parent (some sid) st items = some (op, st1))) := by
  intro items
  induction items with
  | nil =>
      constructor
      · intro _
        exact selLoop_nil parent (some sid) st
      · intro it op st1 hfind _
        simp at hfind
  | cons it rest ih =>
      by_cases htest : it.idOf.isPrefixOf sid = true
      · have hpref : it.idOf = sid.take it.idOf.length := by
          have hp : it.idOf <+: sid := List.isPrefixOf_iff_prefix.mp htest
          exact List.prefix_iff_eq_take.mp hp
        have hfind : (it :: rest).find? (fun x => x.idOf.isPrefixOf sid) = some it :=
          List.find?_cons_of_pos _ htest
        constructor
        · intro hnone
          rw [hfind] at hnone
          cases hnone
        · intro it' op st1 hfind' hsel
          rw [hfind] at hfind'
          injection hfind' with he
          subst he
          constructor
          · intro hop
            rw [selLoop_cons, if_pos hpref, hsel]
            show (if op.code = OpCode.refreshMenu then
                some (⟨.output, some (menuHandleRender parent st1).1⟩,
                  (menuHandleRender parent st1).2)
              else some (op, st1))
              = some (⟨.output, some (menuHandleRender parent st1).1⟩,
                  (menuHandleRender parent st1).2)
            rw [if_pos hop]
          · intro hop
            rw [selLoop_cons, if_pos hpref, hsel]
            show (if op.code = OpCode.refreshMenu then
                some (⟨.output, some (menuHandleRender parent st1).1⟩,
                  (menuHandleRender parent st1).2)
              else some (op, st1))
              = some (op, st1)
            rw [if_neg hop]
      · have hneq : ¬ it.idOf = sid.take it.idOf.length := by
          intro he
          exact htest (List.isPrefixOf_iff_prefix.mpr (List.prefix_iff_eq_take.mpr he))
        have hfind : (it :: rest).find? (fun x => x.idOf.isPrefixOf sid)
            = rest.find? (fun x => x.idOf.isPrefixOf sid) :=
          List.find?_cons_of_neg _ (by simpa using htest)
        have hloop : selLoop parent (some sid) st (it :: rest)
            = selLoop parent (some sid) st rest := by
          rw [selLoop_cons, if_neg hneq]
        constructor
        · intro hnone
          rw [hfind] at hnone
          rw [hloop]
          exact ih.1 hnone
        · intro it' op st1 hfind' hsel
          rw [hfind] at hfind'
          have hih := ih.2 it' op st1 hfind' hsel
          exact ⟨fun hop => by rw [hloop]; exact hih.1 hop,
                 fun hop => by rw [hloop]; exact hih.2 hop⟩

/-! ## C4: `propagate_select` routing -/

/-- **C4.** With a selected id present, `propagate_select` delegates
`handle_select` to the first item in render order whose id is a prefix of
the selected id; a resulting `REFRESH_MENU` becomes an OUTPUT of this
menu's own freshly rendered text, every other Operation is returned
unchanged, and when no item's id is a prefix the result is an OUTPUT of
this menu's render rather than an error. -/
theorem c4_propagate_select :
    ∀ (m : MMenu) (st : MetaSt) (sid : List String),
      st.selectedIdStrs = some sid →
      ((m.itemsOf.find? (fun it => it.idOf.isPrefixOf sid) = none →
          menuPropagateSelect m st
            = some (⟨.output, some (menuHandleRender m st).1⟩, (menuHandleRender m st).2))
       ∧ (∀ it op st1,
            m.itemsOf.find? (fun it => it.idOf.isPrefixOf sid) = some it →
            itemHandleSelect it m st = some (op, st1) →
            (op.code = .refreshMenu →
              menuPropagateSelect m st
                = some (⟨.output, some (menuHandleRender m st1).1⟩,
                    (menuHandleRender m st1).2))
            ∧ (op.code ≠ .refreshMenu → menuPropagateSelect m st = some (op, st1)))) := by
  intro m st sid hsid
  cases m with
  | mk mid prompt allow items =>
      have hchar := selLoop_find_characterization (.mk mid prompt allow items) sid st items
      have hsel : menuPropagateSelect (MMenu.mk mid prompt allow items) st
          = selLoop (.mk mid prompt allow items) (some sid) st items := by
        rw [menuPropagateSelect_mk, hsid]
      constructor
      · intro hnone
        rw [hsel]
        exact hchar.1 hnone
      · intro it op st1 hfind hs
        have h2 := hchar.2 it op st1 hfind hs
        exact ⟨fun hop => by rw [hsel]; exact h2.1 hop,
               fun hop => by rw [hsel]; exact h2.2 hop⟩

/-- Witness for C4: a one-item menu whose custom item answers `EXIT`; the
operation passes through `propagate_select` unchanged. -/
theorem c4_witness :
    MetaSt.selectedIdStrs ⟨[(kId, Json.jarr [Json.jstr segX])], emptyStr, none⟩ = some [segX]
    ∧ menuPropagateSelect
        (MMenu.mk [] segX false
          [MItem.mk [segX] none none none false false false (.custom ⟨.exitApp, none⟩)])
        ⟨[(kId, Json.jarr [Json.jstr segX])], emptyStr, none⟩
      = some (⟨.exitApp, none⟩, ⟨[(kId, Json.jarr [Json.jstr segX])], emptyStr, none⟩) :=
  ⟨rfl,
   ((c4_propagate_select
        (MMenu.mk [] segX false
          [MItem.mk [segX] none none none false false false (.custom ⟨.exitApp, none⟩)])
        ⟨[(kId, Json.jarr [Json.jstr segX])], emptyStr, none⟩ [segX] rfl).2
      (MItem.mk [segX] none none none false false false (.custom ⟨.exitApp, none⟩))
      ⟨.exitApp, none⟩ ⟨[(kId, Json.jarr [Json.jstr segX])], emptyStr, none⟩
      rfl rfl).2 (by decide)⟩

/-! ## C5: `NestedMenu.handle_select` -/

/-- **C5.** A bound `NestedMenu` compares the store's selected id with its
own id: on exact equality it runs its own item-select sequence, whose
default `on_select` outputs the sub-menu's render (wrapped around the
pre-select load and the post-select store); otherwise it delegates to the
sub-menu's `propagate_select`.  Either way, a resulting `REFRESH_MENU` is
rewritten to an OUTPUT of the sub-menu's render, a `BACK_TO_PARENT_MENU`
to an OUTPUT of the enclosing parent menu's render, and any other
Operation passes through unchanged. -/
theorem c5_nested_handle_select :
    ∀ (iid : List String) (text icon search : Option String) (nonsel act urg : Bool)
      (sub parent : MMenu) (st : MetaSt),
      (st.selectedIdStrs = some iid →
        itemHandleSelect (MItem.mk iid text icon search nonsel act urg (.nested sub)) parent st
          = some (⟨.output, some (menuHandleRender sub st).1⟩,
              setStateOf (menuHandleRender sub st).2 iid (getStateOf st iid)))
      ∧ (st.selectedIdStrs ≠ some iid →
         ∀ op st1, menuPropagateSelect sub st = some (op, st1) →
           (op.code = .refreshMenu →
              itemHandleSelect (MItem.mk iid text icon search nonsel act urg (.nested sub))
                  parent st
                = some (⟨.output, some (menuHandleRender sub st1).1⟩,
                    (menuHandleRender sub st1).2))
           ∧ (op.code = .backToParent →
              itemHandleSelect (MItem.mk iid text icon search nonsel act urg (.nested sub))
                  parent st
                = some (⟨.output, some (menuHandleRender parent st1).1⟩,
                    (menuHandleRender parent st1).2))
           ∧ (op.code ≠ .refreshMenu → op.code ≠ .backToParent →
              itemHandleSelect (MItem.mk iid text icon search nonsel act urg (.nested sub))
                  parent st
                = some (op, st1))) := by
  intro iid text icon search nonsel act urg sub parent st
  constructor
  · intro hsid
    rw [itemHandleSelect_nested, if_pos hsid]
    simp [nestedRewrite]
  · intro hne op st1 hprop
    refine ⟨?_, ?_, ?_⟩
    · intro hop
      rw [itemHandleSelect_nested, if_neg hne, hprop]
      show some (nestedRewrite op st1 sub parent) = _
      simp [nestedRewrite, hop]
    · intro hop
      rw [itemHandleSelect_nested, if_neg hne, hprop]
      show some (nestedRewrite op st1 sub parent) = _
      simp [nestedRewrite, hop]
    · intro hop1 hop2
      rw [itemHandleSelect_nested, if_neg hne, hprop]
      show some (nestedRewrite op st1 sub parent) = _
      simp [nestedRewrite, hop1, hop2]

/-- Witness for C5: selecting a `BackItem` inside the sub-menu makes the
nested item output the enclosing parent menu's render. -/
theorem c5_witness :
    MetaSt.selectedIdStrs
        ⟨[(kId, Json.jarr [Json.jstr segRoot, Json.jstr seg0])], emptyStr, none⟩
      ≠ some [segRoot]
    ∧ itemHandleSelect
        (MItem.mk [segRoot] none none none false false false
          (.nested (MMenu.mk [segRoot] segX false
            [MItem.mk [segRoot, seg0] (some segX) none none false false false .backItem])))
        (MMenu.mk [] segX false [])
        ⟨[(kId, Json.jarr [Json.jstr segRoot, Json.jstr seg0])], emptyStr, none⟩
      = some (⟨.output,
          some (menuHandleRender (MMenu.mk [] segX false [])
            ⟨[(kId, Json.jarr [Json.jstr segRoot, Json.jstr seg0])], emptyStr, none⟩).1⟩,
          (menuHandleRender (MMenu.mk [] segX false [])
            ⟨[(kId, Json.jarr [Json.jstr segRoot, Json.jstr seg0])], emptyStr, none⟩).2) := by
  refine ⟨by decide, ?_⟩
  exact ((c5_nested_handle_select [segRoot] none none none false false false
      (MMenu.mk [segRoot] segX false
        [MItem.mk [segRoot, seg0] (some segX) none none false false false .backItem])
      (MMenu.mk [] segX false [])
      ⟨[(kId, Json.jarr [Json.jstr segRoot, Json.jstr seg0])], emptyStr, none⟩).2
    (by decide) ⟨.backToParent, none⟩
    ⟨[(kId, Json.jarr [Json.jstr segRoot, Json.jstr seg0])], emptyStr, none⟩
    rfl).2.1 rfl
